import Mathlib

/-! Gripmock embedded mock responder: shallow embedding and verified properties.

The development embeds the Go sources `simple_mocker.go`, `helper.go`,
`embedded.go`, `embedded_gripmock.go` and `manager.go` as pure Lean functions.

Conventions of the embedding:

* A Go `map[K]V` is an association list of entries with pairwise distinct
  keys (`GoMap`).  The order of the list is the order in which a `range` loop
  visits the entries; Go leaves that order unspecified, so statements are
  proved for every entry list.  A map value that may be `nil` is an
  `Option (GoMap K V)`, `none` being the nil map.
* A Go `error` is a `GoError` (`Option GoError` where `nil` is possible).
* A run-time panic (failed type assertion, nil dereference) is the
  `Except.error` case of `Except Panic _`.
* Calls into code that is not part of the embedded sources (the matcher, the
  descriptor registry, the JSON codecs, the file system, the network server)
  are fields of an environment record and are universally quantified.
-/

namespace Gripmock

/-! ## Go maps -/

/-- Entries of a non-nil Go map, keys pairwise distinct. -/
abbrev GoMap (κ ν : Type) := List (κ × ν)

/-- Keys of a map in iteration order. -/
def GoMap.keys {κ ν : Type} (m : GoMap κ ν) : List κ := m.map Prod.fst

/-- Go `v, ok := m[k]`. -/
def GoMap.get {κ ν : Type} [DecidableEq κ] : GoMap κ ν → κ → Option ν
  | [], _ => none
  | (k', v) :: rest, k => if k' = k then some v else GoMap.get rest k

/-- Go `m[k] = v`: replaces the entry of an existing key, adds one otherwise. -/
def GoMap.set {κ ν : Type} [DecidableEq κ] : GoMap κ ν → κ → ν → GoMap κ ν
  | [], k, v => [(k, v)]
  | (k', v') :: rest, k, v =>
    if k' = k then (k, v) :: rest else (k', v') :: GoMap.set rest k v

/-- Go `v, ok := m[k]` on a map that may be nil (reading a nil map finds nothing). -/
def lookup {κ ν : Type} [DecidableEq κ] (m : Option (GoMap κ ν)) (k : κ) : Option ν :=
  match m with
  | none => none
  | some es => GoMap.get es k

/-- Keys of a map that may be nil. -/
def keysOf {κ ν : Type} (m : Option (GoMap κ ν)) : List κ :=
  match m with
  | none => []
  | some es => GoMap.keys es

/-! ## Go values held in `interface{}` -/

/-- Dynamic Go values that occur in rule payloads and decoded messages.
`float32 x` stands for the Go value `float32(x)` of the float64 with bit
pattern `x`; `map none` is a nil `map[string]interface{}` held in an
interface, `nil` is the nil interface. -/
inductive GoValue where
  | nil
  | bool (b : Bool)
  | int32 (i : Int)
  | int64 (i : Int)
  | uint32 (n : Nat)
  | uint64 (n : Nat)
  | float32 (of64 : Nat)
  | float64 (bits : Nat)
  | string (s : String)
  | bytes (b : List Nat)
  | slice (xs : List GoValue)
  | map (m : Option (List (String × GoValue)))

/-- A `map[string]interface{}` that may be nil. -/
abbrev Payload := Option (GoMap String GoValue)

/-! ## Header extraction (`simple_mocker.go`, `processHeaders`) -/

/-- Go `strings.Join(elems, sep)`. -/
def stringsJoin (elems : List String) (sep : String) : String :=
  sep.intercalate elems

/-- The literal `excludedHeaders` of `processHeaders`. -/
def excludedHeaders : List String :=
  [":authority", "content-type", "grpc-accept-encoding", "user-agent", "accept-encoding"]

/-- Inner loop of `processHeaders`: `skip` starts false and is set, with a
`break`, at the first excluded name equal to `k`. -/
def skipHeader (k : String) : List String → Bool
  | [] => false
  | excluded :: rest => if k = excluded then true else skipHeader k rest

/-- Outer loop of `processHeaders` over the entries of `md`, threading the
`headers` map under construction. -/
def processHeadersLoop :
    List (String × List String) → GoMap String GoValue → GoMap String GoValue
  | [], headers => headers
  | (k, v) :: rest, headers =>
    if !skipHeader k excludedHeaders then
      processHeadersLoop rest (GoMap.set headers k (GoValue.string (stringsJoin v ";")))
    else
      processHeadersLoop rest headers

/-- Embedding of `SimpleMocker.processHeaders`.  The argument lists the
entries of the `metadata.MD` map (a nil and an empty `MD` both have none). -/
def processHeaders (md : GoMap String (List String)) : Payload :=
  if md.length = 0 then none
  else some (processHeadersLoop md [])

/-! ## Rule encoding (`helper.go` and `embedded.go`: `createInputData`, `createOutput`) -/

/-- Run-time panics of the embedded code. -/
inductive Panic where
  | typeAssertion
  | nilDereference
  deriving DecidableEq

/-- The fields of `stuber.InputData` the sources assign; `none` is an unset
(nil) map.  `stuber.InputData` is a type of the external matcher library. -/
structure InputData where
  Equals : Payload := none
  Contains : Payload := none
  Matches : Payload := none

/-- The fields of `stuber.Output` the sources assign or read; `Data = none`
is an unset (nil) map and `Error = ""` the zero value. -/
structure Output where
  Data : Payload := none
  Error : String := ""

/-- The fields of `stuber.Stub` the sources assign. -/
structure Stub where
  Service : String
  Method : String
  Input : InputData
  Output : Output

/-- Go `v.(map[string]interface{})`: panics unless the dynamic type is that
map type (the nil interface included). -/
def assertMap : GoValue → Except Panic Payload
  | GoValue.map m => Except.ok m
  | _ => Except.error Panic.typeAssertion

/-- Go `v.(string)`. -/
def assertString : GoValue → Except Panic String
  | GoValue.string s => Except.ok s
  | _ => Except.error Panic.typeAssertion

/-- Embedding of `createInputData` (the copies in `helper.go` and
`embedded.go` are identical). -/
def createInputData (input : GoValue) : Except Panic InputData :=
  match input with
  | GoValue.nil => Except.ok { Matches := some [] }
  | GoValue.map inputMap =>
    match lookup inputMap "matches" with
    | some matchesV =>
      match assertMap matchesV with
      | Except.ok p => Except.ok { Matches := p }
      | Except.error e => Except.error e
    | none =>
      match lookup inputMap "equals" with
      | some equals =>
        match assertMap equals with
        | Except.ok p => Except.ok { Equals := p }
        | Except.error e => Except.error e
      | none => Except.ok { Matches := inputMap }
  | other =>
    match assertMap other with
    | Except.ok p => Except.ok { Matches := p }
    | Except.error e => Except.error e

/-- Embedding of `createOutput` (the copies in `helper.go` and `embedded.go`
are identical). -/
def createOutput (output : GoValue) : Except Panic Output :=
  match output with
  | GoValue.nil => Except.ok { Data := some [] }
  | GoValue.map outputMap =>
    match lookup outputMap "data" with
    | some data =>
      match assertMap data with
      | Except.ok p => Except.ok { Data := p }
      | Except.error e => Except.error e
    | none =>
      match lookup outputMap "error" with
      | some errorMsg =>
        match assertString errorMsg with
        | Except.ok s => Except.ok { Error := s }
        | Except.error e => Except.error e
      | none => Except.ok { Data := outputMap }
  | other =>
    match assertMap other with
    | Except.ok p => Except.ok { Data := p }
    | Except.error e => Except.error e

/-! ## Go errors -/

/-- Status codes of `google.golang.org/grpc/codes` the sources use. -/
inductive Code where
  | Internal
  | NotFound
  | Unimplemented
  deriving DecidableEq

/-- Go error values: `plain` is an error with a message and nothing wrapped
(`fmt.Errorf` without `%w`, or an error of an external library); `wrap msg
inner` is the result of `fmt.Errorf` with `%w`, `msg` being the whole
formatted text; `status c msg` is `status.Errorf(c, ...)` with status message
`msg`. -/
inductive GoError where
  | plain (msg : String)
  | wrap (msg : String) (inner : GoError)
  | status (code : Code) (msg : String)
  deriving DecidableEq

/-- Rendering of a status code in an error text. -/
def Code.toString : Code → String
  | Code.Internal => "Internal"
  | Code.NotFound => "NotFound"
  | Code.Unimplemented => "Unimplemented"

/-- Go `err.Error()`. -/
def GoError.Error : GoError → String
  | GoError.plain msg => msg
  | GoError.wrap msg _ => msg
  | GoError.status code msg => "rpc error: code = " ++ code.toString ++ " desc = " ++ msg

/-- The error itself followed by everything reachable by `errors.Unwrap`. -/
def GoError.chain : GoError → List GoError
  | GoError.plain msg => [GoError.plain msg]
  | GoError.wrap msg inner => GoError.wrap msg inner :: GoError.chain inner
  | GoError.status code msg => [GoError.status code msg]

/-- Go `fmt.Errorf(text + "%w", err)`: `text` followed by the text of `err`,
wrapping `err`. -/
def errorfW (text : String) (err : GoError) : GoError :=
  GoError.wrap (text ++ err.Error) err

/-- Go `%d` of an `int`. -/
def fmtInt (n : Int) : String := toString n

/-! ## Interface-description discovery (`manager.go`, `discoverProtoFiles`) -/

/-- One invocation of the callback of `filepath.Walk`: the visited path, the
base name and directory flag of its `os.FileInfo`, and the error handed to the
callback (`none` for nil). -/
structure WalkEntry where
  path : String
  name : String
  isDir : Bool
  err : Option GoError

/-- The file system as `discoverProtoFiles` observes it: `notExist dir` is
`os.IsNotExist` of the error of `os.Stat(dir)`; `walk dir` is the sequence of
callback invocations `filepath.Walk(dir, ...)` makes as long as the callback
returns nil. -/
structure FileSystem where
  notExist : String → Bool
  walk : String → List WalkEntry

/-- Go `strings.ToLower`, on the ASCII letters (which are the only ones the
suffix `.proto` can match). -/
def stringsToLower (s : String) : String := ⟨s.data.map Char.toLower⟩

/-- Go `strings.HasSuffix`. -/
def stringsHasSuffix (s suffix : String) : Bool := suffix.data.isSuffixOf s.data

/-- The callback of `filepath.Walk` in `discoverProtoFiles`, run over the
invocations in order; the first non-nil error aborts the walk. -/
def walkProtoFiles : List WalkEntry → List String → Except GoError (List String)
  | [], protoFiles => Except.ok protoFiles
  | info :: rest, protoFiles =>
    match info.err with
    | some err => Except.error err
    | none =>
      if !info.isDir && stringsHasSuffix (stringsToLower info.name) ".proto" then
        walkProtoFiles rest (protoFiles ++ [info.path])
      else
        walkProtoFiles rest protoFiles

/-- Embedding of `discoverProtoFiles`. -/
def discoverProtoFiles (fs : FileSystem) (protoDir : String) : Except GoError (List String) :=
  if protoDir = "" then
    Except.error (GoError.plain "proto directory not specified")
  else if fs.notExist protoDir then
    Except.error (GoError.plain ("proto directory does not exist: " ++ protoDir))
  else
    match walkProtoFiles (fs.walk protoDir) [] with
    | Except.error err => Except.error (errorfW "error walking proto directory: " err)
    | Except.ok protoFiles =>
      if protoFiles.length = 0 then
        Except.error (GoError.plain ("no .proto files found in directory: " ++ protoDir))
      else
        Except.ok protoFiles

/-! ## Endpoint instances (type `Server`) -/

/-- Modelled from the spec: the lifecycle states of an Endpoint Instance
(the Go type `Server`, whose source file is not among the embedded sources):
Created, Starting, Ready, Stopped. -/
inductive Lifecycle where
  | Created
  | Starting
  | Ready
  | Stopped
  deriving DecidableEq

/-- Modelled from the spec: the state of an Endpoint Instance (the Go type
`Server`): its port, its descriptor set and its lifecycle state. -/
structure Server where
  port : Int
  protoFiles : List String
  state : Lifecycle
  deriving DecidableEq

/-- The outcomes of the operations of `Server` that depend on the network and
on the owned matcher: the error (or nil) of `NewServer`, `Start`,
`WaitForReady` and `AddStub`. -/
structure ServerEnv where
  fs : FileSystem
  newServerErr : Int → List String → Option GoError
  startErr : Server → Option GoError
  readyErr : Server → Option GoError
  addStubErr : Server → Stub → Option GoError

/-- Modelled from the spec: `NewServer(port, protoFiles)` constructs an
instance in state Created, or fails. -/
def NewServer (env : ServerEnv) (port : Int) (protoFiles : List String) :
    Except GoError Server :=
  match env.newServerErr port protoFiles with
  | some err => Except.error err
  | none => Except.ok { port := port, protoFiles := protoFiles, state := Lifecycle.Created }

/-- Modelled from the spec: `start` moves the instance to Starting; on
failure the instance transitions to Stopped and the error is returned. -/
def Server.Start (env : ServerEnv) (s : Server) : Server × Option GoError :=
  match env.startErr s with
  | some err => ({ s with state := Lifecycle.Stopped }, some err)
  | none => ({ s with state := Lifecycle.Starting }, none)

/-- Modelled from the spec: `waitUntilReady(timeout)` returns nil once the
listener accepts connections (state Ready), or a timeout error. -/
def Server.WaitForReady (env : ServerEnv) (s : Server) : Server × Option GoError :=
  match env.readyErr s with
  | some err => (s, some err)
  | none => ({ s with state := Lifecycle.Ready }, none)

/-- Modelled from the spec: `stop` is idempotent and leaves the instance
Stopped. -/
def Server.Stop (s : Server) : Server := { s with state := Lifecycle.Stopped }

/-- Modelled from the spec: `isRunning` is true only in the Ready state. -/
def Server.IsRunning (s : Server) : Bool := decide (s.state = Lifecycle.Ready)

/-- Embedding of `EmbeddedMocker` (`helper.go`, `embedded.go`). -/
structure EmbeddedMocker where
  server : Server
  deriving DecidableEq

/-- Embedding of `NewEmbeddedMocker`. -/
def NewEmbeddedMocker (server : Server) : EmbeddedMocker := { server := server }

/-- Embedding of `EmbeddedMocker.GetServer`. -/
def EmbeddedMocker.GetServer (m : EmbeddedMocker) : Server := m.server

/-- Embedding of `EmbeddedMocker.AddStub`: builds the stub (either conversion
may panic) and hands it to `Server.AddStub`, whose error is returned. -/
def EmbeddedMocker.AddStub (env : ServerEnv) (m : EmbeddedMocker)
    (service method : String) (input output : GoValue) : Except Panic (Option GoError) :=
  match createInputData input with
  | Except.error p => Except.error p
  | Except.ok i =>
    match createOutput output with
    | Except.error p => Except.error p
    | Except.ok o =>
      Except.ok (env.addStubErr m.server
        { Service := service, Method := method, Input := i, Output := o })

/-! ## Fleet manager (`manager.go`) -/

/-- Embedding of `MultiServerManager`: the map from port to mocker. -/
structure MultiServerManager where
  servers : GoMap Int EmbeddedMocker
  deriving DecidableEq

/-- Embedding of `ServerConfig`. -/
structure ServerConfig where
  Port : Int
  ProtoDir : String
  Identifier : String
  deriving DecidableEq

/-- Embedding of `NewMultiServerManager`. -/
def NewMultiServerManager : MultiServerManager := { servers := [] }

/-- Body of the loop of `StartServers` for one configuration, up to the
registration: discover, create, start, wait for readiness.  Returns the ready
server, or the error `StartServers` returns. -/
def startServer (env : ServerEnv) (config : ServerConfig) : Except GoError Server :=
  match discoverProtoFiles env.fs config.ProtoDir with
  | Except.error err =>
    Except.error (errorfW ("failed to discover proto files in " ++ config.ProtoDir ++ ": ") err)
  | Except.ok protoFiles =>
    match NewServer env config.Port protoFiles with
    | Except.error err =>
      Except.error (errorfW ("failed to create server on port " ++ fmtInt config.Port ++ ": ") err)
    | Except.ok server =>
      match server.Start env with
      | (_, some err) =>
        Except.error (errorfW ("failed to start server on port " ++ fmtInt config.Port ++ ": ") err)
      | (server, none) =>
        match server.WaitForReady env with
        | (server, some err) =>
          let _stopped := server.Stop
          Except.error (errorfW ("server on port " ++ fmtInt config.Port ++ " not ready: ") err)
        | (server, none) => Except.ok server

/-- Embedding of `MultiServerManager.StartServers`: the manager after the
call and the returned error. -/
def MultiServerManager.StartServers (env : ServerEnv) (m : MultiServerManager) :
    List ServerConfig → MultiServerManager × Option GoError
  | [] => (m, none)
  | config :: rest =>
    match startServer env config with
    | Except.error err => (m, some err)
    | Except.ok server =>
      MultiServerManager.StartServers env
        { servers := GoMap.set m.servers config.Port (NewEmbeddedMocker server) } rest

/-- Embedding of `MultiServerManager.StopAll`: the manager after the call and
the servers it stopped, in the state `Stop` leaves them. -/
def MultiServerManager.StopAll (m : MultiServerManager) : MultiServerManager × List Server :=
  ({ servers := [] }, m.servers.map (fun e => e.2.GetServer.Stop))

/-- The error `MultiServerManager.AddStub` builds for a failing instance:
`fmt.Errorf("failed to add stub to server on port %d: %w", port, err)`. -/
def portFailure (port : Int) (err : GoError) : GoError :=
  errorfW ("failed to add stub to server on port " ++ fmtInt port ++ ": ") err

/-- Loop of `MultiServerManager.AddStub` over the entries: `lastErr` is the
variable of the source; `log` records, per visited port, what that
instance's `AddStub` returned. -/
def addStubLoop (env : ServerEnv) (service method : String) (input output : GoValue) :
    List (Int × EmbeddedMocker) → Option GoError → List (Int × Option GoError) →
    Except Panic (Option GoError × List (Int × Option GoError))
  | [], lastErr, log => Except.ok (lastErr, log)
  | (port, mocker) :: rest, lastErr, log =>
    match mocker.AddStub env service method input output with
    | Except.error p => Except.error p
    | Except.ok (some err) =>
      addStubLoop env service method input output rest
        (some (portFailure port err))
        (log ++ [(port, some err)])
    | Except.ok none =>
      addStubLoop env service method input output rest lastErr (log ++ [(port, none)])

/-- Embedding of `MultiServerManager.AddStub`: the returned error, together
with the log of the per-instance calls made. -/
def MultiServerManager.AddStub (env : ServerEnv) (m : MultiServerManager)
    (service method : String) (input output : GoValue) :
    Except Panic (Option GoError × List (Int × Option GoError)) :=
  if m.servers.length = 0 then
    Except.ok (some (GoError.plain "no servers running"), [])
  else
    addStubLoop env service method input output m.servers none []

/-- Embedding of `MultiServerManager.GetServerPorts`. -/
def MultiServerManager.GetServerPorts (m : MultiServerManager) : List Int :=
  m.servers.foldl (fun ports e => ports ++ [e.1]) []

/-- Embedding of `MultiServerManager.GetServer`. -/
def MultiServerManager.GetServer (m : MultiServerManager) (port : Int) :
    Option EmbeddedMocker :=
  GoMap.get m.servers port

/-- Loop of `MultiServerManager.IsRunning`: returns false at the first
instance that is not running; `n` is `len(m.servers)`. -/
def isRunningLoop (n : Nat) : List (Int × EmbeddedMocker) → Bool
  | [] => decide (n > 0)
  | (_, mocker) :: rest =>
    if !mocker.GetServer.IsRunning then false else isRunningLoop n rest

/-- Embedding of `MultiServerManager.IsRunning`. -/
def MultiServerManager.IsRunning (m : MultiServerManager) : Bool :=
  isRunningLoop m.servers.length m.servers

/-! ## Process-wide surface (`embedded.go`, `embedded_gripmock.go`) -/

/-- The package-level variables: `globalManager` (`none` for nil) and whether
`initOnce` has already run its function. -/
structure Globals where
  globalManager : Option MultiServerManager
  initOnceDone : Bool
  deriving DecidableEq

/-- The package-level variables at program start. -/
def Globals.initial : Globals := { globalManager := none, initOnceDone := false }

/-- The loop of `InitEmbeddedGripmock` filling `configs`. -/
def makeConfigs (protoDir : String) : Nat → List Int → List ServerConfig
  | _, [] => []
  | i, port :: rest =>
    { Port := port, ProtoDir := protoDir, Identifier := "gripmock-" ++ toString i }
      :: makeConfigs protoDir (i + 1) rest

/-- Embedding of `InitEmbeddedGripmock` (the copies in `embedded.go` and
`embedded_gripmock.go` are identical).  `err` is a local variable, nil at the
start of every call; `initOnce.Do` runs its function on the first call only. -/
def InitEmbeddedGripmock (env : ServerEnv) (g : Globals) (protoDir : String)
    (ports : List Int) : Globals × Option GoError :=
  if g.initOnceDone then
    (g, none)
  else
    let r := NewMultiServerManager.StartServers env (makeConfigs protoDir 0 ports)
    ({ globalManager := some r.1, initOnceDone := true }, r.2)

/-- Embedding of `StopEmbeddedGripmock`. -/
def StopEmbeddedGripmock (g : Globals) : Globals :=
  match g.globalManager with
  | some m => { g with globalManager := some m.StopAll.1 }
  | none => g

/-- Embedding of the package-level `AddStub`. -/
def AddStub (env : ServerEnv) (g : Globals) (service method : String)
    (input output : GoValue) : Except Panic (Option GoError × List (Int × Option GoError)) :=
  match g.globalManager with
  | none =>
    Except.ok (some (GoError.plain
      "embedded gripmock not initialized - call InitEmbeddedGripmock first"), [])
  | some m => m.AddStub env service method input output

/-- Embedding of the package-level `GetActivePorts` (`none` is the nil slice). -/
def GetActivePorts (g : Globals) : Option (List Int) :=
  match g.globalManager with
  | none => none
  | some m => some m.GetServerPorts

/-- Embedding of the package-level `IsRunning`. -/
def IsRunning (g : Globals) : Bool :=
  match g.globalManager with
  | none => false
  | some m => m.IsRunning

/-! ## Descriptors and dynamic messages (`protoreflect`, as `simple_mocker.go` uses it) -/

/-- The values of `protoreflect.Kind`; `InvalidKind` stands for every value
that is none of the named kinds. -/
inductive Kind where
  | InvalidKind
  | BoolKind
  | EnumKind
  | Int32Kind
  | Sint32Kind
  | Uint32Kind
  | Int64Kind
  | Sint64Kind
  | Uint64Kind
  | Sfixed32Kind
  | Fixed32Kind
  | FloatKind
  | Sfixed64Kind
  | Fixed64Kind
  | DoubleKind
  | StringKind
  | BytesKind
  | MessageKind
  | GroupKind
  deriving DecidableEq

/-- What the code reads of a `protoreflect.FieldDescriptor`: `Name()`,
`Kind()`, `IsList()`, `IsMap()`, the values of `Enum()` as pairs of number and
name, and, of the descriptor `MapValue()` of a map field, its kind and enum
values. -/
structure FieldDescriptor where
  Name : String
  Kind : Gripmock.Kind
  IsList : Bool := false
  IsMap : Bool := false
  EnumValues : List (Int × String) := []
  MapValueKind : Gripmock.Kind := Gripmock.Kind.InvalidKind
  MapValueEnumValues : List (Int × String) := []
  deriving DecidableEq

/-- The descriptor `fd.MapValue()` of the value field of a map field. -/
def FieldDescriptor.MapValue (fd : FieldDescriptor) : FieldDescriptor :=
  { Name := "value", Kind := fd.MapValueKind, EnumValues := fd.MapValueEnumValues }

/-- `fd.Enum().Values().ByNumber(n)`: the name of the first declared value
with number `n`, `none` (a nil descriptor) when no value has that number. -/
def FieldDescriptor.enumByNumber (fd : FieldDescriptor) (n : Int) : Option String :=
  (fd.EnumValues.find? (fun v => decide (v.1 = n))).map Prod.snd

/-- The keys of a protobuf map value (`protoreflect.MapKey`). -/
inductive MapKey where
  | bool (b : Bool)
  | int (i : Int)
  | uint (n : Nat)
  | string (s : String)
  deriving DecidableEq

/-- `protoreflect.MapKey.String()`. -/
def MapKey.String : MapKey → String
  | MapKey.bool b => if b then "true" else "false"
  | MapKey.int i => toString i
  | MapKey.uint n => toString n
  | MapKey.string s => s

/-- The cases of `protoreflect.Value`.  `invalid` is the zero value; `int`
holds an int32 or int64, `uint` a uint32 or uint64, `float` the bit pattern of
a float32 or float64; `message none` is a nil message, `message (some fs)` a
message given by the fields that hold a value (see `Message`). -/
inductive Value where
  | invalid
  | bool (b : Bool)
  | int (i : Int)
  | uint (n : Nat)
  | float (bits : Nat)
  | string (s : String)
  | bytes (b : List Nat)
  | enum (n : Int)
  | message (m : Option (List (FieldDescriptor × Value)))
  | list (xs : List Value)
  | map (es : List (MapKey × Value))

/-- A non-nil message: its fields that hold a value, each with its
descriptor, in the order `Range` goes through them.  A singular field is
listed only when it is set; a repeated or map field may be listed with an
empty list or map. -/
abbrev Message := List (FieldDescriptor × Value)

/-- Whether a stored value makes its field populated, as `protoreflect`
documents `Has` and `Range`: a repeated field or a map field is populated when
it is not empty, an invalid value populates nothing, a stored singular value
does. -/
def Value.populated : Value → Bool
  | Value.invalid => false
  | Value.list xs => !xs.isEmpty
  | Value.map es => !es.isEmpty
  | _ => true

/-- `message.Has(fd)`: the field holds a value that makes it populated. -/
def Message.Has (msg : Message) (fd : FieldDescriptor) : Bool :=
  msg.any (fun f => decide (f.1.Name = fd.Name) && f.2.populated)

/-- Go `int32(x)` of an int64. -/
def toInt32 (i : Int) : Int := (i + 2 ^ 31) % 2 ^ 32 - 2 ^ 31

/-- Go `uint32(x)` of a uint64. -/
def toUint32 (n : Nat) : Nat := n % 2 ^ 32

/-! ## The dispatcher (`simple_mocker.go`) -/

mutual
/-- Embedding of `SimpleMocker.convertSingleValue`: the `switch` on
`fd.Kind()`, one pair of alternatives per kind.  An accessor of
`protoreflect.Value` applied to a value of another type panics. -/
def convertSingleValue (fd : FieldDescriptor) (value : Value) : Except Panic GoValue :=
  match fd.Kind, value with
  | Kind.BoolKind, Value.bool b => Except.ok (GoValue.bool b)
  | Kind.BoolKind, _ => Except.error Panic.typeAssertion
  | Kind.Int32Kind, Value.int i => Except.ok (GoValue.int32 (toInt32 i))
  | Kind.Int32Kind, _ => Except.error Panic.typeAssertion
  | Kind.Sint32Kind, Value.int i => Except.ok (GoValue.int32 (toInt32 i))
  | Kind.Sint32Kind, _ => Except.error Panic.typeAssertion
  | Kind.Sfixed32Kind, Value.int i => Except.ok (GoValue.int32 (toInt32 i))
  | Kind.Sfixed32Kind, _ => Except.error Panic.typeAssertion
  | Kind.Int64Kind, Value.int i => Except.ok (GoValue.int64 i)
  | Kind.Int64Kind, _ => Except.error Panic.typeAssertion
  | Kind.Sint64Kind, Value.int i => Except.ok (GoValue.int64 i)
  | Kind.Sint64Kind, _ => Except.error Panic.typeAssertion
  | Kind.Sfixed64Kind, Value.int i => Except.ok (GoValue.int64 i)
  | Kind.Sfixed64Kind, _ => Except.error Panic.typeAssertion
  | Kind.Uint32Kind, Value.uint n => Except.ok (GoValue.uint32 (toUint32 n))
  | Kind.Uint32Kind, _ => Except.error Panic.typeAssertion
  | Kind.Fixed32Kind, Value.uint n => Except.ok (GoValue.uint32 (toUint32 n))
  | Kind.Fixed32Kind, _ => Except.error Panic.typeAssertion
  | Kind.Uint64Kind, Value.uint n => Except.ok (GoValue.uint64 n)
  | Kind.Uint64Kind, _ => Except.error Panic.typeAssertion
  | Kind.Fixed64Kind, Value.uint n => Except.ok (GoValue.uint64 n)
  | Kind.Fixed64Kind, _ => Except.error Panic.typeAssertion
  | Kind.FloatKind, Value.float bits => Except.ok (GoValue.float32 bits)
  | Kind.FloatKind, _ => Except.error Panic.typeAssertion
  | Kind.DoubleKind, Value.float bits => Except.ok (GoValue.float64 bits)
  | Kind.DoubleKind, _ => Except.error Panic.typeAssertion
  | Kind.StringKind, Value.string s => Except.ok (GoValue.string s)
  | Kind.StringKind, _ => Except.error Panic.typeAssertion
  | Kind.BytesKind, Value.bytes b => Except.ok (GoValue.bytes b)
  | Kind.BytesKind, _ => Except.error Panic.typeAssertion
  | Kind.EnumKind, Value.enum n =>
    match fd.enumByNumber n with
    | some name => Except.ok (GoValue.string name)
    | none => Except.error Panic.nilDereference
  | Kind.EnumKind, _ => Except.error Panic.typeAssertion
  | Kind.MessageKind, Value.invalid => Except.ok GoValue.nil
  | Kind.MessageKind, Value.message none => Except.ok GoValue.nil
  | Kind.MessageKind, Value.message (some fields) =>
    match convertFields (Message.Has fields) fields [] with
    | Except.ok result => Except.ok (GoValue.map (some result))
    | Except.error p => Except.error p
  | Kind.MessageKind, _ => Except.error Panic.typeAssertion
  | Kind.GroupKind, Value.invalid => Except.ok GoValue.nil
  | Kind.GroupKind, Value.message none => Except.ok GoValue.nil
  | Kind.GroupKind, Value.message (some fields) =>
    match convertFields (Message.Has fields) fields [] with
    | Except.ok result => Except.ok (GoValue.map (some result))
    | Except.error p => Except.error p
  | Kind.GroupKind, _ => Except.error Panic.typeAssertion
  | Kind.InvalidKind, _ => Except.ok GoValue.nil
/-- The `message.Range` call of `convertToMap` with its callback, run over
the stored fields that remain: `Range` passes over a field that is not
populated and calls the callback for every other one.  `has` is `message.Has`
of the whole message and `result` the map under construction. -/
def convertFields (has : FieldDescriptor → Bool) :
    List (FieldDescriptor × Value) → GoMap String GoValue →
    Except Panic (GoMap String GoValue)
  | [], result => Except.ok result
  | (fd, value) :: rest, result =>
    if !value.populated then
      convertFields has rest result
    else if !has fd then
      convertFields has rest result
    else if fd.IsList then
      match value with
      | Value.list xs =>
        match convertElements fd xs with
        | Except.ok arrayResult =>
          convertFields has rest (GoMap.set result fd.Name (GoValue.slice arrayResult))
        | Except.error p => Except.error p
      | _ => Except.error Panic.typeAssertion
    else if fd.IsMap then
      match value with
      | Value.map es =>
        match convertEntries fd.MapValue es [] with
        | Except.ok mapResult =>
          convertFields has rest (GoMap.set result fd.Name (GoValue.map (some mapResult)))
        | Except.error p => Except.error p
      | _ => Except.error Panic.typeAssertion
    else
      match convertSingleValue fd value with
      | Except.ok v => convertFields has rest (GoMap.set result fd.Name v)
      | Except.error p => Except.error p
/-- The loop of `convertToMap` filling `arrayResult` from a list value. -/
def convertElements (fd : FieldDescriptor) : List Value → Except Panic (List GoValue)
  | [] => Except.ok []
  | v :: rest =>
    match convertSingleValue fd v with
    | Except.ok g =>
      match convertElements fd rest with
      | Except.ok gs => Except.ok (g :: gs)
      | Except.error p => Except.error p
    | Except.error p => Except.error p
/-- The callback `convertToMap` hands to `mapValue.Range`, filling `mapResult`. -/
def convertEntries (valueDesc : FieldDescriptor) :
    List (MapKey × Value) → GoMap String GoValue → Except Panic (GoMap String GoValue)
  | [], mapResult => Except.ok mapResult
  | (key, val) :: rest, mapResult =>
    match convertSingleValue valueDesc val with
    | Except.ok g => convertEntries valueDesc rest (GoMap.set mapResult key.String g)
    | Except.error p => Except.error p
end

/-- Embedding of `SimpleMocker.convertToMap`; `none` is a nil message and the
nil map returned for it. -/
def convertToMap (msg : Option Message) : Except Panic Payload :=
  match msg with
  | none => Except.ok none
  | some message =>
    match convertFields (Message.Has message) message [] with
    | Except.ok result => Except.ok (some result)
    | Except.error p => Except.error p

/-- What the code reads of a `protoreflect.MessageDescriptor`. -/
structure MessageDescriptor where
  FullName : String
  Fields : List FieldDescriptor
  deriving DecidableEq

/-- What the code reads of a `protoreflect.MethodDescriptor`. -/
structure MethodDescriptor where
  Name : String
  Input : MessageDescriptor
  Output : MessageDescriptor
  deriving DecidableEq

/-- A descriptor found in the registry: a service with its methods, or a
descriptor of another sort. -/
inductive Descriptor where
  | service (methods : List MethodDescriptor)
  | other

/-- Embedding of `stuber.Query`, as far as the code fills it. -/
structure Query where
  Service : String
  Method : String
  Data : Payload
  Headers : Payload := none

/-- Result of `Budgerigar.FindByQuery`: `found` is what `Found()` returns
(`none` for nil). -/
structure Result where
  found : Option Stub

/-- Embedding of `Result.Found`. -/
def Result.Found (r : Result) : Option Stub := r.found

/-- The collaborators of the dispatcher outside the embedded sources: the
global descriptor registry, the matcher, and the two JSON codecs
`json.Marshal` and `protojson.Unmarshal` (the bytes of the JSON text are
natural numbers). -/
structure MockerEnv where
  FindDescriptorByName : String → Except GoError Descriptor
  FindByQuery : Query → Except GoError Result
  jsonMarshal : Payload → Except GoError (List Nat)
  protojsonUnmarshal : List Nat → MessageDescriptor → Except GoError Message

/-- Embedding of `SimpleMocker` (the matcher `budgerigar` is in the
environment). -/
structure SimpleMocker where
  fullServiceName : String
  methodName : String

/-- Embedding of `SimpleMocker.getMessageDescriptors`. -/
def SimpleMocker.getMessageDescriptors (env : MockerEnv) (m : SimpleMocker) :
    Except GoError (MessageDescriptor × MessageDescriptor) :=
  match env.FindDescriptorByName m.fullServiceName with
  | Except.error err =>
    Except.error (GoError.plain ("service descriptor not found: " ++ err.Error))
  | Except.ok (Descriptor.service methods) =>
    match methods.find? (fun d => decide (d.Name = m.methodName)) with
    | none => Except.error (GoError.plain ("method not found: " ++ m.methodName))
    | some methodDesc => Except.ok (methodDesc.Input, methodDesc.Output)
  | Except.ok Descriptor.other =>
    Except.error (GoError.plain ("not a service descriptor: " ++ m.fullServiceName))

/-- Embedding of `SimpleMocker.newOutputMessage`: the message (`none` for
nil) and the error. -/
def SimpleMocker.newOutputMessage (env : MockerEnv) (_m : SimpleMocker) (data : Payload)
    (outputDesc : MessageDescriptor) : Option Message × Option GoError :=
  match env.jsonMarshal data with
  | Except.error err => (none, some (errorfW "failed to marshal data to JSON: " err))
  | Except.ok jsonData =>
    match env.protojsonUnmarshal jsonData outputDesc with
    | Except.error err =>
      (none, some (errorfW "failed to unmarshal JSON into dynamic message: " err))
    | Except.ok msg => (some msg, none)

/-- Lines 40 to 49 of `unaryHandler`: the query built from the decoded
request and the incoming metadata (`ctx` is `none` when the context carries
no metadata). -/
def SimpleMocker.buildQuery (m : SimpleMocker) (data : Payload)
    (ctx : Option (GoMap String (List String))) : Query :=
  match ctx with
  | some md =>
    { Service := m.fullServiceName, Method := m.methodName, Data := data,
      Headers := processHeaders md }
  | none =>
    { Service := m.fullServiceName, Method := m.methodName, Data := data }

/-- Embedding of `SimpleMocker.unaryHandler`: the response (`none` for nil)
and the error, unless the call panics.  `dec` decodes the request into a
message of the given descriptor. -/
def SimpleMocker.unaryHandler (env : MockerEnv) (m : SimpleMocker)
    (ctx : Option (GoMap String (List String)))
    (dec : MessageDescriptor → Except GoError Message) :
    Except Panic (Option Message × Option GoError) :=
  match m.getMessageDescriptors env with
  | Except.error err => Except.ok (none, some err)
  | Except.ok (inputDesc, outputDesc) =>
    match dec inputDesc with
    | Except.error err => Except.ok (none, some err)
    | Except.ok req =>
      match convertToMap (some req) with
      | Except.error p => Except.error p
      | Except.ok data =>
        match env.FindByQuery (m.buildQuery data ctx) with
        | Except.error err =>
          Except.ok (none, some (GoError.status Code.Internal
            ("failed to find stub: " ++ err.Error)))
        | Except.ok result =>
          match result.Found with
          | none =>
            Except.ok (none, some (GoError.status Code.NotFound
              ("no stub found for service " ++ m.fullServiceName ++ ", method "
                ++ m.methodName)))
          | some found =>
            match m.newOutputMessage env found.Output.Data outputDesc with
            | (_, some err) =>
              Except.ok (none, some (GoError.status Code.Internal
                ("failed to create response: " ++ err.Error)))
            | (outputMsg, none) => Except.ok (outputMsg, none)

/-- Embedding of `SimpleMocker.streamHandler`. -/
def SimpleMocker.streamHandler (_m : SimpleMocker) : GoError :=
  GoError.status Code.Unimplemented "streaming not implemented in simplified version"

/-- The message of the failure a caller observes: the status message of a
status error, and the text of any other error (which the transport reports
with code Unknown). -/
def GoError.statusMessage : GoError → String
  | GoError.status _ msg => msg
  | err => err.Error

/-! ## Observations used in the statements -/

/-- Number of registered instances that report running. -/
def runningInstances (m : MultiServerManager) : Nat :=
  (m.servers.filter (fun e => e.2.GetServer.IsRunning)).length

/-- Go `strings.Contains`. -/
def stringsContains (s substr : String) : Bool :=
  s.data.tails.any (fun t => substr.data.isPrefixOf t)

/-- Whether a returned error reports the failure `err` of the instance on
`port`, in the most generous reading: the wrapped per-port failure or `err`
itself is in the chain of the returned error, or the text of `err` occurs in
the text of the returned error. -/
def reportsFailure (ret : Option GoError) (port : Int) (err : GoError) : Bool :=
  match ret with
  | none => false
  | some r =>
    decide (portFailure port err ∈ r.chain) || decide (err ∈ r.chain)
      || stringsContains r.Error err.Error

/-- The per-port failures of a log of per-instance outcomes, in visiting order. -/
def failures (log : List (Int × Option GoError)) : List GoError :=
  log.filterMap (fun c => c.2.map (portFailure c.1))

/-- A file system with one directory `protos` holding `a.proto`. -/
def demoFS : FileSystem :=
  { notExist := fun dir => decide (dir ≠ "protos"),
    walk := fun _ =>
      [ { path := "protos", name := "protos", isDir := true, err := none },
        { path := "protos/a.proto", name := "a.proto", isDir := false, err := none } ] }

/-- An environment in which every server is created, starts and becomes
ready, and every matcher accepts every stub. -/
def demoEnv : ServerEnv :=
  { fs := demoFS,
    newServerErr := fun _ _ => none,
    startErr := fun _ => none,
    readyErr := fun _ => none,
    addStubErr := fun _ _ => none }

/-- As `demoEnv`, but the matcher of every instance rejects every stub, with
an error text naming the instance. -/
def rejectingEnv : ServerEnv :=
  { demoEnv with
    addStubErr := fun s _ =>
      if s.port = 5001 then some (GoError.plain "first matcher unavailable")
      else some (GoError.plain "second matcher unavailable") }

/-- A ready server on the given port. -/
def readyServer (port : Int) : Server :=
  { port := port, protoFiles := ["protos/a.proto"], state := Lifecycle.Ready }

/-- A fleet of two ready instances, on ports 5001 and 5002. -/
def twoFleet : MultiServerManager :=
  { servers := [(5001, NewEmbeddedMocker (readyServer 5001)),
                (5002, NewEmbeddedMocker (readyServer 5002))] }

/-- The fleet `twoFleet` with its entries visited in the other order. -/
def twoFleetSwapped : MultiServerManager :=
  { servers := [(5002, NewEmbeddedMocker (readyServer 5002)),
                (5001, NewEmbeddedMocker (readyServer 5001))] }

/-- A stopped server on the given port. -/
def stoppedServer (port : Int) : Server :=
  { port := port, protoFiles := ["protos/a.proto"], state := Lifecycle.Stopped }

/-- A fleet of two instances of which the second is stopped. -/
def halfFleet : MultiServerManager :=
  { servers := [(5001, NewEmbeddedMocker (readyServer 5001)),
                (5002, NewEmbeddedMocker (stoppedServer 5002))] }

/-- Two configurations, for ports 5001 and 5002, of which the second names no
descriptor directory and so fails at discovery. -/
def secondFails : List ServerConfig :=
  [ { Port := 5001, ProtoDir := "protos", Identifier := "gripmock-0" },
    { Port := 5002, ProtoDir := "", Identifier := "gripmock-1" } ]

/-- As `demoEnv`, but the matcher of the instance on port 5001 rejects every
stub. -/
def firstRejectsEnv : ServerEnv :=
  { demoEnv with
    addStubErr := fun s _ =>
      if s.port = 5001 then some (GoError.plain "first matcher unavailable") else none }

/-- The environment `env` in which every rule the matcher finds carries the
error message `e` instead of its own. -/
def MockerEnv.withRuleError (env : MockerEnv) (e : String) : MockerEnv :=
  { env with
    FindByQuery := fun q =>
      match env.FindByQuery q with
      | Except.error err => Except.error err
      | Except.ok r =>
        Except.ok (Result.mk (r.found.map
          (fun s => { s with Output := { Data := s.Output.Data, Error := e } }))) }

/-- Request shape of the demonstration service: one string field `name`. -/
def helloRequest : MessageDescriptor :=
  { FullName := "demo.HelloRequest", Fields := [{ Name := "name", Kind := Kind.StringKind }] }

/-- Response shape of the demonstration service: one string field `reply`. -/
def helloReply : MessageDescriptor :=
  { FullName := "demo.HelloReply", Fields := [{ Name := "reply", Kind := Kind.StringKind }] }

/-- A registry that knows the service `demo.Greeter` with its one method
`SayHello`. -/
def greeterRegistry (name : String) : Except GoError Descriptor :=
  if name = "demo.Greeter" then
    Except.ok (Descriptor.service
      [{ Name := "SayHello", Input := helloRequest, Output := helloReply }])
  else
    Except.error (GoError.plain "proto: not found")

/-- The dispatcher installed for `demo.Greeter/SayHello`. -/
def greeter : SimpleMocker := { fullServiceName := "demo.Greeter", methodName := "SayHello" }

/-- The stub `EmbeddedMocker.AddStub` builds from input `{"name": "world"}`
and output `{"error": "boom"}`. -/
def boomStub : Stub :=
  { Service := "demo.Greeter", Method := "SayHello",
    Input := { Matches := some [("name", GoValue.string "world")] },
    Output := { Data := none, Error := "boom" } }

/-- An environment whose matcher answers every query with `boomStub`; the two
JSON codecs are arbitrary. -/
def boomEnv (jsonMarshal : Payload → Except GoError (List Nat))
    (protojsonUnmarshal : List Nat → MessageDescriptor → Except GoError Message) :
    MockerEnv :=
  { FindDescriptorByName := greeterRegistry,
    FindByQuery := fun _ => Except.ok { found := some boomStub },
    jsonMarshal := jsonMarshal,
    protojsonUnmarshal := protojsonUnmarshal }

/-- A decoder that yields the request `{name: "world"}`. -/
def helloDec (_desc : MessageDescriptor) : Except GoError Message :=
  Except.ok [({ Name := "name", Kind := Kind.StringKind }, Value.string "world")]

/-- Metadata all of whose keys are excluded header names. -/
def housekeepingOnly : GoMap String (List String) :=
  [(":authority", ["x"]), ("content-type", ["y"])]

/-! ## Observations on decoding -/

/-- What the callback of `convertToMap` stores under the name of one visited
field: the converted elements of a repeated field, the converted entries of a
map field, the converted value of any other field. -/
def convertField (fd : FieldDescriptor) (value : Value) : Except Panic GoValue :=
  if fd.IsList then
    match value with
    | Value.list xs =>
      match convertElements fd xs with
      | Except.ok arrayResult => Except.ok (GoValue.slice arrayResult)
      | Except.error p => Except.error p
    | _ => Except.error Panic.typeAssertion
  else if fd.IsMap then
    match value with
    | Value.map es =>
      match convertEntries fd.MapValue es [] with
      | Except.ok mapResult => Except.ok (GoValue.map (some mapResult))
      | Except.error p => Except.error p
    | _ => Except.error Panic.typeAssertion
  else
    convertSingleValue fd value

/-- Names of the fields a message stores, in order. -/
def Message.names (msg : Message) : List String := msg.map (fun f => f.1.Name)

mutual
/-- A singular value conforms to the kind of its descriptor and every
enumeration number in it has a declared name. -/
def Value.conformsTo (fd : FieldDescriptor) (value : Value) : Bool :=
  match fd.Kind, value with
  | Kind.BoolKind, Value.bool _ => true
  | Kind.Int32Kind, Value.int _ => true
  | Kind.Sint32Kind, Value.int _ => true
  | Kind.Sfixed32Kind, Value.int _ => true
  | Kind.Int64Kind, Value.int _ => true
  | Kind.Sint64Kind, Value.int _ => true
  | Kind.Sfixed64Kind, Value.int _ => true
  | Kind.Uint32Kind, Value.uint _ => true
  | Kind.Fixed32Kind, Value.uint _ => true
  | Kind.Uint64Kind, Value.uint _ => true
  | Kind.Fixed64Kind, Value.uint _ => true
  | Kind.FloatKind, Value.float _ => true
  | Kind.DoubleKind, Value.float _ => true
  | Kind.StringKind, Value.string _ => true
  | Kind.BytesKind, Value.bytes _ => true
  | Kind.EnumKind, Value.enum n => (fd.enumByNumber n).isSome
  | Kind.MessageKind, Value.message none => true
  | Kind.MessageKind, Value.message (some fields) => fieldsConform fields
  | Kind.GroupKind, Value.message none => true
  | Kind.GroupKind, Value.message (some fields) => fieldsConform fields
  | _, _ => false
/-- Every stored field of a message conforms to its descriptor: a repeated
field holds a list of conforming elements, a map field a map of conforming
values, any other field a conforming singular value. -/
def fieldsConform : List (FieldDescriptor × Value) → Bool
  | [] => true
  | (fd, value) :: rest =>
    (if fd.IsList then
      match value with
      | Value.list xs => elementsConform fd xs
      | _ => false
    else if fd.IsMap then
      match value with
      | Value.map es => entriesConform fd.MapValue es
      | _ => false
    else
      Value.conformsTo fd value) && fieldsConform rest
/-- Every element of a list value conforms to the descriptor of its field. -/
def elementsConform (fd : FieldDescriptor) : List Value → Bool
  | [] => true
  | v :: rest => Value.conformsTo fd v && elementsConform fd rest
/-- Every value of a map value conforms to the descriptor of the map's values. -/
def entriesConform (valueDesc : FieldDescriptor) : List (MapKey × Value) → Bool
  | [] => true
  | (_, val) :: rest => Value.conformsTo valueDesc val && entriesConform valueDesc rest
end

/-- A repeated string field `tags`. -/
def tagsField : FieldDescriptor :=
  { Name := "tags", Kind := Kind.StringKind, IsList := true }

/-- An enumeration field `color` whose enumeration declares `RED = 0` only. -/
def colorField : FieldDescriptor :=
  { Name := "color", Kind := Kind.EnumKind, EnumValues := [(0, "RED")] }

/-- A message with a name and a repeated field `tags` that has no elements. -/
def noTagsMessage : Message :=
  [({ Name := "name", Kind := Kind.StringKind }, Value.string "world"),
   (tagsField, Value.list [])]

/-- A message whose repeated field `tags` holds two elements. -/
def twoTagsMessage : Message :=
  [({ Name := "name", Kind := Kind.StringKind }, Value.string "world"),
   (tagsField, Value.list [Value.string "a", Value.string "b"])]

/-- A message whose field `color` holds the number 5, which the enumeration
does not name (an open enumeration keeps such a number in the field). -/
def unnamedColorMessage : Message :=
  [({ Name := "name", Kind := Kind.StringKind }, Value.string "world"),
   (colorField, Value.enum 5)]

/-- The message `unnamedColorMessage` with the declared number 0 in `color`. -/
def namedColorMessage : Message :=
  [({ Name := "name", Kind := Kind.StringKind }, Value.string "world"),
   (colorField, Value.enum 0)]

end Gripmock

namespace Gripmock

/-! ## Lemmas on Go maps -/

theorem GoMap.get_set {κ ν : Type} [DecidableEq κ] (m : GoMap κ ν) (k x : κ) (v : ν) :
    GoMap.get (GoMap.set m k v) x = if k = x then some v else GoMap.get m x := by
  induction m with
  | nil => simp [GoMap.set, GoMap.get]
  | cons e rest ih =>
    obtain ⟨k', v'⟩ := e
    by_cases h1 : k' = k
    · subst h1
      by_cases h2 : k' = x <;> simp [GoMap.set, GoMap.get, h2]
    · by_cases h2 : k' = x
      · subst h2
        simp [GoMap.set, GoMap.get, h1, Ne.symm h1]
      · simp [GoMap.set, GoMap.get, h1, h2, ih]

theorem GoMap.get_eq_none_iff {κ ν : Type} [DecidableEq κ] (m : GoMap κ ν) (x : κ) :
    GoMap.get m x = none ↔ x ∉ GoMap.keys m := by
  induction m with
  | nil => simp [GoMap.get, GoMap.keys]
  | cons e rest ih =>
    obtain ⟨k', v'⟩ := e
    by_cases h : k' = x
    · simp [GoMap.get, GoMap.keys, h]
    · have ih' : GoMap.get rest x = none ↔ x ∉ List.map Prod.fst rest := ih
      simp [GoMap.get, GoMap.keys, h, Ne.symm h, ih']

theorem GoMap.mem_keys_iff {κ ν : Type} [DecidableEq κ] (m : GoMap κ ν) (x : κ) :
    x ∈ GoMap.keys m ↔ ∃ v, GoMap.get m x = some v := by
  constructor
  · intro h
    cases hg : GoMap.get m x with
    | none => exact absurd h ((GoMap.get_eq_none_iff m x).1 hg)
    | some v => exact ⟨v, rfl⟩
  · rintro ⟨v, hv⟩
    by_contra hx
    rw [(GoMap.get_eq_none_iff m x).2 hx] at hv
    cases hv

theorem GoMap.keys_set {κ ν : Type} [DecidableEq κ] (m : GoMap κ ν) (k : κ) (v : ν) :
    GoMap.keys (GoMap.set m k v)
      = if k ∈ GoMap.keys m then GoMap.keys m else GoMap.keys m ++ [k] := by
  induction m with
  | nil => simp [GoMap.set, GoMap.keys]
  | cons e rest ih =>
    obtain ⟨k', v'⟩ := e
    have ih' : List.map Prod.fst (GoMap.set rest k v)
        = if k ∈ List.map Prod.fst rest then List.map Prod.fst rest
          else List.map Prod.fst rest ++ [k] := ih
    by_cases h : k' = k
    · subst h
      simp [GoMap.set, GoMap.keys]
    · by_cases h2 : k ∈ List.map Prod.fst rest
      · have h3 : ∃ a, (k, a) ∈ rest := by simpa using h2
        simp [GoMap.set, GoMap.keys, h, Ne.symm h, ih', h3]
      · have h3 : ¬ ∃ a, (k, a) ∈ rest := by simpa using h2
        have h4 : ∀ a, (k, a) ∉ rest := fun a ha => h3 ⟨a, ha⟩
        simp [GoMap.set, GoMap.keys, h, Ne.symm h, ih', h4]

theorem GoMap.nodup_keys_set {κ ν : Type} [DecidableEq κ] (m : GoMap κ ν) (k : κ) (v : ν)
    (h : (GoMap.keys m).Nodup) : (GoMap.keys (GoMap.set m k v)).Nodup := by
  rw [GoMap.keys_set]
  by_cases hk : k ∈ GoMap.keys m
  · simpa [hk] using h
  · simp only [hk, if_false]
    exact List.Nodup.append h (List.nodup_singleton k) (by simpa using hk)

/-! ## Lemmas on `processHeaders` -/

theorem skipHeader_eq_true_iff (k : String) (l : List String) :
    skipHeader k l = true ↔ k ∈ l := by
  induction l with
  | nil => simp [skipHeader]
  | cons a rest ih =>
    by_cases h : k = a
    · simp [skipHeader, h]
    · simp [skipHeader, h, ih]

theorem processHeadersLoop_get (md : GoMap String (List String))
    (hnd : (GoMap.keys md).Nodup) (headers : GoMap String GoValue) (x : String) :
    GoMap.get (processHeadersLoop md headers) x =
      match GoMap.get md x with
      | some vs =>
        if skipHeader x excludedHeaders then GoMap.get headers x
        else some (GoValue.string (stringsJoin vs ";"))
      | none => GoMap.get headers x := by
  induction md generalizing headers with
  | nil => simp [processHeadersLoop, GoMap.get]
  | cons e rest ih =>
    obtain ⟨k, v⟩ := e
    have hnd' : k ∉ GoMap.keys rest ∧ (GoMap.keys rest).Nodup := by
      simpa [GoMap.keys] using hnd
    have hk : GoMap.get rest k = none := (GoMap.get_eq_none_iff rest k).2 hnd'.1
    by_cases hs : skipHeader k excludedHeaders = true
    · by_cases hx : k = x
      · subst hx
        simp [processHeadersLoop, hs, ih hnd'.2, hk, GoMap.get]
      · simp [processHeadersLoop, hs, ih hnd'.2, GoMap.get, hx]
    · by_cases hx : k = x
      · subst hx
        simp [processHeadersLoop, hs, ih hnd'.2, hk, GoMap.get, GoMap.get_set]
      · simp [processHeadersLoop, hs, ih hnd'.2, GoMap.get, hx, GoMap.get_set]

theorem processHeadersLoop_nodup (md : GoMap String (List String))
    (headers : GoMap String GoValue) (h : (GoMap.keys headers).Nodup) :
    (GoMap.keys (processHeadersLoop md headers)).Nodup := by
  induction md generalizing headers with
  | nil => simpa [processHeadersLoop] using h
  | cons e rest ih =>
    obtain ⟨k, v⟩ := e
    by_cases hs : skipHeader k excludedHeaders = true
    · simpa [processHeadersLoop, hs] using ih headers h
    · simpa [processHeadersLoop, hs] using ih _ (GoMap.nodup_keys_set headers k _ h)

theorem processHeaders_lookup (md : GoMap String (List String))
    (hnd : (GoMap.keys md).Nodup) (x : String) :
    lookup (processHeaders md) x =
      match GoMap.get md x with
      | some vs =>
        if x ∈ excludedHeaders then none else some (GoValue.string (stringsJoin vs ";"))
      | none => none := by
  cases md with
  | nil => simp [processHeaders, lookup, GoMap.get]
  | cons e rest =>
    have h := processHeadersLoop_get (e :: rest) hnd [] x
    simp only [processHeaders, lookup, List.length_cons, Nat.succ_ne_zero, if_false,
      Nat.add_one_ne_zero]
    rw [h]
    cases hg : GoMap.get (e :: rest) x with
    | none => simp [GoMap.get]
    | some vs =>
      by_cases hs : x ∈ excludedHeaders
      · simp [hs, (skipHeader_eq_true_iff x excludedHeaders).2 hs, GoMap.get]
      · have : ¬ skipHeader x excludedHeaders = true :=
          fun h => hs ((skipHeader_eq_true_iff x excludedHeaders).1 h)
        simp [hs, this]

/-! ## Theorems on header extraction -/

/-- C2: for every metadata map, the keys of the mapping returned by
`processHeaders` are exactly the keys of the metadata that are none of the five
excluded names, each mapped to its values joined in order with `;`; the
example metadata yields exactly the one entry `x-trace ↦ a;b`. -/
theorem processHeaders_correct (md : GoMap String (List String))
    (hnd : (GoMap.keys md).Nodup) :
    (∀ k, k ∈ keysOf (processHeaders md) ↔ (k ∈ GoMap.keys md ∧ k ∉ excludedHeaders)) ∧
    (keysOf (processHeaders md)).Nodup ∧
    (∀ k vs, GoMap.get md k = some vs → k ∉ excludedHeaders →
      lookup (processHeaders md) k = some (GoValue.string (String.intercalate ";" vs))) ∧
    processHeaders
        [(":authority", ["x"]), ("content-type", ["y"]), ("x-trace", ["a", "b"])]
      = some [("x-trace", GoValue.string "a;b")] := by
  refine ⟨?_, ?_, ?_, rfl⟩
  · intro k
    have hl := processHeaders_lookup md hnd k
    have hkeys : k ∈ keysOf (processHeaders md) ↔ ∃ v, lookup (processHeaders md) k = some v := by
      cases hp : processHeaders md with
      | none => simp [keysOf, lookup, GoMap.keys]
      | some es => simpa [keysOf, lookup] using GoMap.mem_keys_iff es k
    rw [hkeys, hl, GoMap.mem_keys_iff]
    cases hg : GoMap.get md k with
    | none => simp
    | some vs =>
      by_cases hs : k ∈ excludedHeaders <;> simp [hs]
  · cases md with
    | nil => simp [processHeaders, keysOf]
    | cons e rest =>
      simpa [processHeaders, keysOf] using
        processHeadersLoop_nodup (e :: rest) [] (by simp [GoMap.keys])
  · intro k vs hg hs
    rw [processHeaders_lookup md hnd k, hg]
    simp [hs, stringsJoin]

/-- Witness of C2 at the metadata of the specification's example. -/
theorem processHeaders_correct_witness :
    (GoMap.keys [(":authority", ["x"]), ("content-type", ["y"]),
        ("x-trace", ["a", "b"])]).Nodup ∧
    lookup (processHeaders
        [(":authority", ["x"]), ("content-type", ["y"]), ("x-trace", ["a", "b"])]) "x-trace"
      = some (GoValue.string (String.intercalate ";" ["a", "b"])) :=
  ⟨by decide,
   (processHeaders_correct
      [(":authority", ["x"]), ("content-type", ["y"]), ("x-trace", ["a", "b"])]
      (by decide)).2.2.1 "x-trace" ["a", "b"] (by rfl) (by decide)⟩

/-! ## Theorems on rule encoding -/

/-- C5: for every input that is a string-keyed mapping, `createInputData`
returns `Matches` = the payload under key `matches` (and `Equals` unset) when
that key is present; otherwise `Equals` = the payload under key `equals` (and
`Matches` unset) when that key is present; otherwise `Matches` = the whole
input mapping (and `Equals` unset). -/
theorem createInputData_shape (m : Payload) :
    (∀ p : Payload, lookup m "matches" = some (GoValue.map p) →
      createInputData (GoValue.map m)
        = Except.ok { Equals := none, Contains := none, Matches := p }) ∧
    (∀ p : Payload, lookup m "matches" = none → lookup m "equals" = some (GoValue.map p) →
      createInputData (GoValue.map m)
        = Except.ok { Equals := p, Contains := none, Matches := none }) ∧
    (lookup m "matches" = none → lookup m "equals" = none →
      createInputData (GoValue.map m)
        = Except.ok { Equals := none, Contains := none, Matches := m }) := by
  refine ⟨?_, ?_, ?_⟩
  · intro p h
    simp [createInputData, h, assertMap]
  · intro p h1 h2
    simp [createInputData, h1, h2, assertMap]
  · intro h1 h2
    simp [createInputData, h1, h2]

/-- Witness of C5: one concrete input for each of the three shapes. -/
theorem createInputData_shape_witness :
    createInputData (GoValue.map (some [("matches", GoValue.map (some [("name", GoValue.string "w")]))]))
      = Except.ok { Equals := none, Contains := none,
                    Matches := some [("name", GoValue.string "w")] } ∧
    createInputData (GoValue.map (some [("equals", GoValue.map (some [("name", GoValue.string "w")]))]))
      = Except.ok { Equals := some [("name", GoValue.string "w")], Contains := none,
                    Matches := none } ∧
    createInputData (GoValue.map (some [("name", GoValue.string "w")]))
      = Except.ok { Equals := none, Contains := none,
                    Matches := some [("name", GoValue.string "w")] } :=
  ⟨(createInputData_shape _).1 _ (by rfl),
   (createInputData_shape _).2.1 _ (by rfl) (by rfl),
   (createInputData_shape _).2.2 (by rfl) (by rfl)⟩

/-- C6: for every output that is a string-keyed mapping, `createOutput`
returns `Data` = the payload under key `data` with an empty `Error` when that
key is present; otherwise `Error` = the string under key `error` with no
`Data` when that key is present; otherwise `Data` = the whole output mapping
with an empty `Error`. -/
theorem createOutput_shape (m : Payload) :
    (∀ p : Payload, lookup m "data" = some (GoValue.map p) →
      createOutput (GoValue.map m) = Except.ok { Data := p, Error := "" }) ∧
    (∀ e : String, lookup m "data" = none → lookup m "error" = some (GoValue.string e) →
      createOutput (GoValue.map m) = Except.ok { Data := none, Error := e }) ∧
    (lookup m "data" = none → lookup m "error" = none →
      createOutput (GoValue.map m) = Except.ok { Data := m, Error := "" }) := by
  refine ⟨?_, ?_, ?_⟩
  · intro p h
    simp [createOutput, h, assertMap]
  · intro e h1 h2
    simp [createOutput, h1, h2, assertString]
  · intro h1 h2
    simp [createOutput, h1, h2]

/-- Witness of C6: one concrete output for each of the three shapes. -/
theorem createOutput_shape_witness :
    createOutput (GoValue.map (some [("data", GoValue.map (some [("reply", GoValue.string "hi")]))]))
      = Except.ok { Data := some [("reply", GoValue.string "hi")], Error := "" } ∧
    createOutput (GoValue.map (some [("error", GoValue.string "boom")]))
      = Except.ok { Data := none, Error := "boom" } ∧
    createOutput (GoValue.map (some [("reply", GoValue.string "hi")]))
      = Except.ok { Data := some [("reply", GoValue.string "hi")], Error := "" } :=
  ⟨(createOutput_shape _).1 _ (by rfl),
   (createOutput_shape _).2.1 _ (by rfl) (by rfl),
   (createOutput_shape _).2.2 (by rfl) (by rfl)⟩

/-! ## Lemmas on the fleet manager -/

theorem isRunningLoop_eq_true_iff (n : Nat) (es : List (Int × EmbeddedMocker)) :
    isRunningLoop n es = true ↔
      (0 < n ∧ ∀ e ∈ es, e.2.GetServer.IsRunning = true) := by
  induction es with
  | nil => simp [isRunningLoop]
  | cons e rest ih =>
    obtain ⟨port, mocker⟩ := e
    by_cases h : mocker.GetServer.IsRunning = true
    · simp [isRunningLoop, h, ih]
    · simp [isRunningLoop, h]

theorem MultiServerManager.IsRunning_eq_true_iff (m : MultiServerManager) :
    m.IsRunning = true ↔
      (m.servers ≠ [] ∧ ∀ e ∈ m.servers, e.2.GetServer.IsRunning = true) := by
  unfold MultiServerManager.IsRunning
  rw [isRunningLoop_eq_true_iff, List.length_pos]

theorem startServer_ok (env : ServerEnv) (c : ServerConfig) (s : Server)
    (h : startServer env c = Except.ok s) :
    s.IsRunning = true ∧ s.port = c.Port := by
  unfold startServer at h
  cases hd : discoverProtoFiles env.fs c.ProtoDir with
  | error err => simp [hd] at h
  | ok files =>
    cases hn : env.newServerErr c.Port files with
    | some err => simp [hd, NewServer, hn] at h
    | none =>
      cases hs : env.startErr { port := c.Port, protoFiles := files, state := Lifecycle.Created } with
      | some err => simp [hd, NewServer, hn, Server.Start, hs] at h
      | none =>
        cases hr : env.readyErr
            { port := c.Port, protoFiles := files, state := Lifecycle.Starting } with
        | some err => simp [hd, NewServer, hn, Server.Start, hs, Server.WaitForReady, hr] at h
        | none =>
          simp [hd, NewServer, hn, Server.Start, hs, Server.WaitForReady, hr] at h
          subst h
          simp [Server.IsRunning]

theorem GoMap.mem_set {κ ν : Type} [DecidableEq κ] (m : GoMap κ ν) (k : κ) (v : ν)
    (e : κ × ν) (h : e ∈ GoMap.set m k v) : e ∈ m ∨ e = (k, v) := by
  induction m with
  | nil => simpa [GoMap.set] using h
  | cons a rest ih =>
    obtain ⟨k', v'⟩ := a
    by_cases hk : k' = k
    · simp only [GoMap.set, hk, if_true, List.mem_cons] at h
      rcases h with h | h
      · exact Or.inr h
      · exact Or.inl (List.mem_cons_of_mem _ h)
    · simp only [GoMap.set, hk, if_false, List.mem_cons] at h
      rcases h with h | h
      · exact Or.inl (by simp [h])
      · rcases ih h with h' | h'
        · exact Or.inl (List.mem_cons_of_mem _ h')
        · exact Or.inr h'

/-- Starting a list of configurations that all succeed returns no error. -/
theorem StartServers_all_ok (env : ServerEnv) (cs : List ServerConfig)
    (hok : ∀ c ∈ cs, ∃ s, startServer env c = Except.ok s) (m : MultiServerManager) :
    (m.StartServers env cs).2 = none := by
  induction cs generalizing m with
  | nil => simp [MultiServerManager.StartServers]
  | cons c rest ih =>
    obtain ⟨s, hs⟩ := hok c (by simp)
    simp only [MultiServerManager.StartServers, hs]
    exact ih (fun c' hc' => hok c' (List.mem_cons_of_mem _ hc')) _

/-- A failing configuration ends the call: the manager is left as the
configurations before it made it. -/
theorem StartServers_stops_at_failure (env : ServerEnv) (pre : List ServerConfig)
    (c : ServerConfig) (post : List ServerConfig) (err : GoError)
    (hok : ∀ c' ∈ pre, ∃ s, startServer env c' = Except.ok s)
    (hc : startServer env c = Except.error err) (m : MultiServerManager) :
    m.StartServers env (pre ++ c :: post) = ((m.StartServers env pre).1, some err) := by
  induction pre generalizing m with
  | nil => simp [MultiServerManager.StartServers, hc]
  | cons c' rest ih =>
    obtain ⟨s, hs⟩ := hok c' (by simp)
    simp only [List.cons_append, MultiServerManager.StartServers, hs]
    exact ih (fun c'' hc'' => hok c'' (List.mem_cons_of_mem _ hc'')) _

/-- A port that holds a running instance still holds one after further
successful starts. -/
theorem StartServers_keeps_running (env : ServerEnv) (cs : List ServerConfig)
    (hok : ∀ c ∈ cs, ∃ s, startServer env c = Except.ok s) (m : MultiServerManager)
    (port : Int)
    (h : ∃ mk, GoMap.get m.servers port = some mk ∧ mk.GetServer.IsRunning = true) :
    ∃ mk, GoMap.get (m.StartServers env cs).1.servers port = some mk
      ∧ mk.GetServer.IsRunning = true := by
  induction cs generalizing m with
  | nil => simpa [MultiServerManager.StartServers] using h
  | cons c rest ih =>
    obtain ⟨s, hs⟩ := hok c (by simp)
    simp only [MultiServerManager.StartServers, hs]
    apply ih (fun c' hc' => hok c' (List.mem_cons_of_mem _ hc'))
    by_cases hp : c.Port = port
    · refine ⟨NewEmbeddedMocker s, ?_, ?_⟩
      · simp [GoMap.get_set, hp]
      · simpa [NewEmbeddedMocker, EmbeddedMocker.GetServer] using (startServer_ok env c s hs).1
    · obtain ⟨mk, h1, h2⟩ := h
      exact ⟨mk, by simp [GoMap.get_set, hp, h1], h2⟩

/-- Every configuration started successfully is registered and running
afterwards. -/
theorem StartServers_registers (env : ServerEnv) (cs : List ServerConfig)
    (hok : ∀ c ∈ cs, ∃ s, startServer env c = Except.ok s) (m : MultiServerManager) :
    ∀ c ∈ cs, ∃ mk, GoMap.get (m.StartServers env cs).1.servers c.Port = some mk
      ∧ mk.GetServer.IsRunning = true := by
  induction cs generalizing m with
  | nil => simp
  | cons c rest ih =>
    intro c' hc'
    obtain ⟨s, hs⟩ := hok c (by simp)
    have hrest : ∀ c ∈ rest, ∃ s, startServer env c = Except.ok s :=
      fun c'' hc'' => hok c'' (List.mem_cons_of_mem _ hc'')
    simp only [MultiServerManager.StartServers, hs]
    rcases List.mem_cons.1 hc' with h | h
    · subst h
      apply StartServers_keeps_running env rest hrest
      refine ⟨NewEmbeddedMocker s, by simp [GoMap.get_set], ?_⟩
      simpa [NewEmbeddedMocker, EmbeddedMocker.GetServer] using (startServer_ok env c' s hs).1
    · exact ih hrest _ c' h

/-- Successful starts only add running instances. -/
theorem StartServers_entries (env : ServerEnv) (cs : List ServerConfig)
    (hok : ∀ c ∈ cs, ∃ s, startServer env c = Except.ok s) (m : MultiServerManager) :
    ∀ e ∈ (m.StartServers env cs).1.servers,
      e ∈ m.servers ∨ e.2.GetServer.IsRunning = true := by
  induction cs generalizing m with
  | nil => intro e he; exact Or.inl (by simpa [MultiServerManager.StartServers] using he)
  | cons c rest ih =>
    intro e he
    obtain ⟨s, hs⟩ := hok c (by simp)
    simp only [MultiServerManager.StartServers, hs] at he
    rcases ih (fun c'' hc'' => hok c'' (List.mem_cons_of_mem _ hc'')) _ e he with h | h
    · rcases GoMap.mem_set _ _ _ _ h with h' | h'
      · exact Or.inl h'
      · right
        subst h'
        simpa [NewEmbeddedMocker, EmbeddedMocker.GetServer] using (startServer_ok env c s hs).1
    · exact Or.inr h

/-- The loop of `AddStub`, when the rule converts without panic: every entry
is visited and logged in order, and `lastErr` ends as the last per-port
failure, if any. -/
theorem addStubLoop_eq (env : ServerEnv) (service method : String) (input output : GoValue)
    (i : InputData) (o : Output)
    (hi : createInputData input = Except.ok i) (ho : createOutput output = Except.ok o)
    (es : List (Int × EmbeddedMocker)) (lastErr : Option GoError)
    (log : List (Int × Option GoError)) :
    addStubLoop env service method input output es lastErr log =
      Except.ok
        (match (failures (es.map (fun e => (e.1, env.addStubErr e.2.server
            { Service := service, Method := method, Input := i, Output := o })))).getLast? with
          | some f => some f
          | none => lastErr,
         log ++ es.map (fun e => (e.1, env.addStubErr e.2.server
            { Service := service, Method := method, Input := i, Output := o }))) := by
  induction es generalizing lastErr log with
  | nil => simp [addStubLoop, failures]
  | cons e rest ih =>
    obtain ⟨port, mocker⟩ := e
    cases hr : env.addStubErr mocker.server
        { Service := service, Method := method, Input := i, Output := o } with
    | none =>
      simp [addStubLoop, EmbeddedMocker.AddStub, hi, ho, hr, ih, failures]
    | some err =>
      simp only [addStubLoop, EmbeddedMocker.AddStub, hi, ho, hr, ih, failures,
        List.map_cons, List.filterMap_cons, Option.map_some', List.append_assoc,
        List.singleton_append]
      congr 2
      cases hl : (List.filterMap (fun c => Option.map (portFailure c.1) c.2)
          (List.map (fun e => (e.1, env.addStubErr e.2.server
            { Service := service, Method := method, Input := i, Output := o })) rest)) with
      | nil => simp
      | cons a l =>
        cases hg : (a :: l).getLast? with
        | none => simp [List.getLast?_eq_none_iff] at hg
        | some f => rw [List.getLast?_cons_cons, hg]

/-- What `AddStub` returns on a non-empty fleet when the rule converts
without panic. -/
theorem MultiServerManager.AddStub_eq (env : ServerEnv) (m : MultiServerManager)
    (service method : String) (input output : GoValue) (i : InputData) (o : Output)
    (hne : m.servers ≠ [])
    (hi : createInputData input = Except.ok i) (ho : createOutput output = Except.ok o) :
    m.AddStub env service method input output =
      Except.ok
        ((failures (m.servers.map (fun e => (e.1, env.addStubErr e.2.server
            { Service := service, Method := method, Input := i, Output := o })))).getLast?,
         m.servers.map (fun e => (e.1, env.addStubErr e.2.server
            { Service := service, Method := method, Input := i, Output := o }))) := by
  have hlen : m.servers.length ≠ 0 := by
    intro h
    exact hne (List.length_eq_zero.1 h)
  unfold MultiServerManager.AddStub
  rw [if_neg hlen, addStubLoop_eq env service method input output i o hi ho]
  simp only [List.nil_append]
  cases (failures (m.servers.map (fun e => (e.1, env.addStubErr e.2.server
      { Service := service, Method := method, Input := i, Output := o })))).getLast? <;> rfl

/-! ## Theorems on the fleet manager -/

/-- C3 (counterexample): with configurations for ports 5001 and 5002 of which
the second fails, `StartServers` returns an error and yet the instance on port
5001 is still registered and running: one running instance, `IsRunning()`
true. -/
theorem StartServers_no_rollback :
    (NewMultiServerManager.StartServers demoEnv secondFails).2.isSome = true ∧
    runningInstances (NewMultiServerManager.StartServers demoEnv secondFails).1 = 1 ∧
    (NewMultiServerManager.StartServers demoEnv secondFails).1.IsRunning = true ∧
    ((NewMultiServerManager.StartServers demoEnv secondFails).1.GetServer 5001).map
        (fun mk => mk.GetServer.IsRunning) = some true := by
  decide

/-- C3 (amended): when the configurations before `c` all start and `c` fails,
`StartServers` returns the error of `c` and leaves the manager exactly as the
successful starts before `c` made it: each of them is registered and reports
running, none has been stopped, and from an empty manager with at least one
earlier start `IsRunning()` is true. -/
theorem StartServers_failure_keeps_started (env : ServerEnv) (m : MultiServerManager)
    (establishedBefore : List ServerConfig) (c : ServerConfig) (later : List ServerConfig)
    (err : GoError)
    (hok : ∀ c' ∈ establishedBefore, ∃ s, startServer env c' = Except.ok s)
    (hc : startServer env c = Except.error err) :
    (m.StartServers env (establishedBefore ++ c :: later)).2 = some err ∧
    (m.StartServers env (establishedBefore ++ c :: later)).1
      = (m.StartServers env establishedBefore).1 ∧
    (m.StartServers env establishedBefore).2 = none ∧
    (∀ c' ∈ establishedBefore, ∃ mk,
      (m.StartServers env (establishedBefore ++ c :: later)).1.GetServer c'.Port = some mk
        ∧ mk.GetServer.IsRunning = true) ∧
    (m.servers = [] → establishedBefore ≠ [] →
      (m.StartServers env (establishedBefore ++ c :: later)).1.IsRunning = true) := by
  have hstop := StartServers_stops_at_failure env establishedBefore c later err hok hc m
  have hreg := StartServers_registers env establishedBefore hok m
  refine ⟨by rw [hstop], by rw [hstop], StartServers_all_ok env _ hok m, ?_, ?_⟩
  · intro c' hc'
    rw [hstop]
    exact hreg c' hc'
  · intro hm hne
    rw [hstop, MultiServerManager.IsRunning_eq_true_iff]
    constructor
    · intro hempty
      cases hb : establishedBefore with
      | nil => exact hne hb
      | cons c0 rest =>
        obtain ⟨mk, hget, -⟩ := hreg c0 (by simp [hb])
        rw [hempty] at hget
        simp [GoMap.get] at hget
    · intro e he
      rcases StartServers_entries env establishedBefore hok m e he with h | h
      · rw [hm] at h
        cases h
      · exact h

/-- Witness of the amended C3: one successful start on port 5001 followed by
a configuration that fails. -/
theorem StartServers_failure_keeps_started_witness :
    (NewMultiServerManager.StartServers demoEnv secondFails).2
      = some (errorfW "failed to discover proto files in : "
          (GoError.plain "proto directory not specified")) ∧
    (NewMultiServerManager.StartServers demoEnv secondFails).1.IsRunning = true := by
  have h := StartServers_failure_keeps_started demoEnv NewMultiServerManager
    [{ Port := 5001, ProtoDir := "protos", Identifier := "gripmock-0" }]
    { Port := 5002, ProtoDir := "", Identifier := "gripmock-1" } []
    (errorfW "failed to discover proto files in : "
      (GoError.plain "proto directory not specified"))
    (by intro c' hc'
        simp only [List.mem_singleton] at hc'
        subst hc'
        exact ⟨readyServer 5001, rfl⟩)
    rfl
  exact ⟨h.1, h.2.2.2.2 rfl (by simp)⟩

/-- C4 (counterexample): on a fleet of two instances that both fail, the
returned error reports one failure only; the failure of the instance visited
first is neither in its chain nor in its text, whichever of the two orders the
entries are visited in. -/
theorem AddStub_drops_earlier_failure :
    (twoFleet.AddStub rejectingEnv "svc" "m" GoValue.nil GoValue.nil).toOption.map
        (fun r => (r.2, r.1.map GoError.Error,
          reportsFailure r.1 5001 (GoError.plain "first matcher unavailable")))
      = some ([(5001, some (GoError.plain "first matcher unavailable")),
               (5002, some (GoError.plain "second matcher unavailable"))],
              some "failed to add stub to server on port 5002: second matcher unavailable",
              false) ∧
    (twoFleetSwapped.AddStub rejectingEnv "svc" "m" GoValue.nil GoValue.nil).toOption.map
        (fun r => (r.2, r.1.map GoError.Error,
          reportsFailure r.1 5002 (GoError.plain "second matcher unavailable")))
      = some ([(5002, some (GoError.plain "second matcher unavailable")),
               (5001, some (GoError.plain "first matcher unavailable"))],
              some "failed to add stub to server on port 5001: first matcher unavailable",
              false) := by
  decide

/-- C4 (amended): for every non-empty fleet and every rule that converts,
`AddStub` returns the failure, wrapped with its port, of the last failing
instance visited (nil when no instance failed); the log holds the outcome of
every instance. -/
theorem AddStub_reports_last_failure (env : ServerEnv) (m : MultiServerManager)
    (service method : String) (input output : GoValue) (i : InputData) (o : Output)
    (hne : m.servers ≠ [])
    (hi : createInputData input = Except.ok i) (ho : createOutput output = Except.ok o) :
    ∃ ret log, m.AddStub env service method input output = Except.ok (ret, log) ∧
      log = m.servers.map (fun e => (e.1, env.addStubErr e.2.server
        { Service := service, Method := method, Input := i, Output := o })) ∧
      ret = (failures log).getLast? :=
  ⟨_, _, MultiServerManager.AddStub_eq env m service method input output i o hne hi ho,
    rfl, rfl⟩

/-- Witness of the amended C4 on the two-instance fleet whose matchers both
reject. -/
theorem AddStub_reports_last_failure_witness :
    ∃ ret log, twoFleet.AddStub rejectingEnv "svc" "m" GoValue.nil GoValue.nil
        = Except.ok (ret, log) ∧
      log = twoFleet.servers.map (fun e => (e.1, rejectingEnv.addStubErr e.2.server
        { Service := "svc", Method := "m", Input := { Matches := some [] },
          Output := { Data := some [] } })) ∧
      ret = (failures log).getLast? :=
  AddStub_reports_last_failure rejectingEnv twoFleet "svc" "m" GoValue.nil GoValue.nil
    { Matches := some [] } { Data := some [] } (by decide) rfl rfl

/-- C8: `MultiServerManager.IsRunning` is true exactly when the map of
instances is non-empty and every registered instance reports running; it is
false for the empty fleet and false as soon as one instance is not running. -/
theorem MultiServerManager.IsRunning_iff (m : MultiServerManager) :
    (m.IsRunning = true ↔
      (m.servers ≠ [] ∧ ∀ e ∈ m.servers, e.2.GetServer.IsRunning = true)) ∧
    NewMultiServerManager.IsRunning = false ∧
    ((∃ e ∈ m.servers, e.2.GetServer.IsRunning = false) → m.IsRunning = false) := by
  refine ⟨MultiServerManager.IsRunning_eq_true_iff m, by decide, ?_⟩
  rintro ⟨e, he, hfalse⟩
  cases hr : m.IsRunning with
  | false => rfl
  | true =>
    have h := ((MultiServerManager.IsRunning_eq_true_iff m).1 hr).2 e he
    rw [hfalse] at h
    cases h

/-- Witness of C8 on a fleet whose second instance is stopped. -/
theorem MultiServerManager.IsRunning_iff_witness :
    (∃ e ∈ halfFleet.servers, e.2.GetServer.IsRunning = false) ∧
    halfFleet.IsRunning = false :=
  ⟨⟨(5002, NewEmbeddedMocker (stoppedServer 5002)), by decide, by decide⟩,
   (MultiServerManager.IsRunning_iff halfFleet).2.2
     ⟨(5002, NewEmbeddedMocker (stoppedServer 5002)), by decide, by decide⟩⟩

/-- C9: for every non-empty fleet and every rule that converts, `AddStub`
calls every registered instance exactly once, in visiting order, whether or
not instances fail, and returns nil exactly when no instance failed. -/
theorem AddStub_reaches_every_instance (env : ServerEnv) (m : MultiServerManager)
    (service method : String) (input output : GoValue) (i : InputData) (o : Output)
    (hne : m.servers ≠ []) (hnd : (GoMap.keys m.servers).Nodup)
    (hi : createInputData input = Except.ok i) (ho : createOutput output = Except.ok o) :
    ∃ ret log, m.AddStub env service method input output = Except.ok (ret, log) ∧
      log = m.servers.map (fun e => (e.1, env.addStubErr e.2.server
        { Service := service, Method := method, Input := i, Output := o })) ∧
      log.map Prod.fst = GoMap.keys m.servers ∧
      (∀ port ∈ GoMap.keys m.servers, (log.map Prod.fst).count port = 1) ∧
      (ret = none ↔ ∀ c ∈ log, c.2 = none) := by
  have hkeys : (m.servers.map (fun e => (e.1, env.addStubErr e.2.server
        { Service := service, Method := method, Input := i, Output := o }))).map Prod.fst
      = GoMap.keys m.servers := by
    simp [GoMap.keys, List.map_map, Function.comp_def]
  refine ⟨_, _, MultiServerManager.AddStub_eq env m service method input output i o hne hi ho,
    rfl, hkeys, ?_, ?_⟩
  · intro port hport
    rw [hkeys]
    exact List.count_eq_one_of_mem hnd hport
  · generalize (m.servers.map (fun e => (e.1, env.addStubErr e.2.server
        { Service := service, Method := method, Input := i, Output := o }))) = log
    cases hg : (failures log).getLast? with
    | none =>
      simp only [true_iff]
      have hnil : failures log = [] := List.getLast?_eq_none_iff.1 hg
      intro c hc
      cases hc2 : c.2 with
      | none => rfl
      | some e =>
        have : portFailure c.1 e ∈ failures log := by
          unfold failures
          rw [List.mem_filterMap]
          exact ⟨c, hc, by simp [hc2]⟩
        rw [hnil] at this
        cases this
    | some f =>
      simp only [false_iff, reduceCtorEq]
      intro hall
      have hmem : f ∈ failures log := List.mem_of_getLast?_eq_some hg
      unfold failures at hmem
      rw [List.mem_filterMap] at hmem
      obtain ⟨c, hc, hc2⟩ := hmem
      rw [hall c hc] at hc2
      cases hc2

/-- Witness of C9 on the two-instance fleet whose first matcher rejects. -/
theorem AddStub_reaches_every_instance_witness :
    ∃ ret log, twoFleet.AddStub firstRejectsEnv "svc" "m" GoValue.nil GoValue.nil
        = Except.ok (ret, log) ∧
      log = twoFleet.servers.map (fun e => (e.1, firstRejectsEnv.addStubErr e.2.server
        { Service := "svc", Method := "m", Input := { Matches := some [] },
          Output := { Data := some [] } })) ∧
      log.map Prod.fst = GoMap.keys twoFleet.servers ∧
      (∀ port ∈ GoMap.keys twoFleet.servers, (log.map Prod.fst).count port = 1) ∧
      (ret = none ↔ ∀ c ∈ log, c.2 = none) :=
  AddStub_reaches_every_instance firstRejectsEnv twoFleet "svc" "m" GoValue.nil GoValue.nil
    { Matches := some [] } { Data := some [] } (by decide) (by decide) rfl rfl

/-! ## Theorems on the process-wide surface -/

/-- Once `initOnce` has run, a call of `InitEmbeddedGripmock` changes nothing
and returns nil. -/
theorem InitEmbeddedGripmock_after_first (env : ServerEnv) (g : Globals) (protoDir : String)
    (ports : List Int) (h : g.initOnceDone = true) :
    InitEmbeddedGripmock env g protoDir ports = (g, none) := by
  simp [InitEmbeddedGripmock, h]

/-- The first call of `InitEmbeddedGripmock` runs `StartServers` on a fresh
manager and returns its error. -/
theorem InitEmbeddedGripmock_first (env : ServerEnv) (protoDir : String) (ports : List Int) :
    InitEmbeddedGripmock env Globals.initial protoDir ports =
      ({ globalManager :=
           some (NewMultiServerManager.StartServers env (makeConfigs protoDir 0 ports)).1,
         initOnceDone := true },
       (NewMultiServerManager.StartServers env (makeConfigs protoDir 0 ports)).2) := by
  simp [InitEmbeddedGripmock, Globals.initial]

/-- C7 (the code at the failing input): a first call of `InitEmbeddedGripmock`
with an empty descriptor directory fails, in every environment, and the
second call then returns nil, not the error of the first. -/
theorem InitEmbeddedGripmock_second_call_returns_nil (env : ServerEnv) :
    (InitEmbeddedGripmock env Globals.initial "" [5001]).2
      = some (errorfW "failed to discover proto files in : "
          (GoError.plain "proto directory not specified")) ∧
    (InitEmbeddedGripmock env
        (InitEmbeddedGripmock env Globals.initial "" [5001]).1 "" [5001]).2 = none ∧
    (InitEmbeddedGripmock env
        (InitEmbeddedGripmock env Globals.initial "" [5001]).1 "" [5001]).1
      = (InitEmbeddedGripmock env Globals.initial "" [5001]).1 := by
  refine ⟨?_, ?_, ?_⟩ <;>
    simp [InitEmbeddedGripmock, Globals.initial, makeConfigs,
      MultiServerManager.StartServers, startServer, discoverProtoFiles]

/-! ## Theorems on the dispatcher -/

theorem processHeadersLoop_all_excluded (md : GoMap String (List String))
    (h : ∀ k ∈ GoMap.keys md, k ∈ excludedHeaders) (headers : GoMap String GoValue) :
    processHeadersLoop md headers = headers := by
  induction md generalizing headers with
  | nil => rfl
  | cons e rest ih =>
    obtain ⟨k, v⟩ := e
    have hk : skipHeader k excludedHeaders = true :=
      (skipHeader_eq_true_iff k excludedHeaders).2 (h k (by simp [GoMap.keys]))
    simp only [processHeadersLoop, hk, Bool.not_true, Bool.false_eq_true, if_false]
    exact ih (fun k' hk' => h k' (by
      simp only [GoMap.keys, List.map_cons, List.mem_cons] at hk' ⊢
      exact Or.inr hk')) headers

theorem response_text_ne_boom (t : String) : "failed to create response: " ++ t ≠ "boom" := by
  intro h
  have h2 := congrArg String.data h
  simp only [String.data_append] at h2
  have h3 := congrArg List.head? h2
  simp at h3

theorem newOutputMessage_cases (env : MockerEnv) (m : SimpleMocker) (data : Payload)
    (desc : MessageDescriptor) :
    (∃ msg, m.newOutputMessage env data desc = (some msg, none)) ∨
    (∃ err, m.newOutputMessage env data desc = (none, some err)) := by
  unfold SimpleMocker.newOutputMessage
  split
  · exact Or.inr ⟨_, rfl⟩
  · split
    · exact Or.inr ⟨_, rfl⟩
    · exact Or.inl ⟨_, rfl⟩

/-- The outcome of `unaryHandler` does not depend on the error message of the
rule the matcher finds. -/
theorem unaryHandler_independent_of_rule_error (env : MockerEnv) (m : SimpleMocker)
    (ctx : Option (GoMap String (List String)))
    (dec : MessageDescriptor → Except GoError Message) (e : String) :
    m.unaryHandler (env.withRuleError e) ctx dec = m.unaryHandler env ctx dec := by
  have hd : m.getMessageDescriptors (env.withRuleError e) = m.getMessageDescriptors env := rfl
  unfold SimpleMocker.unaryHandler
  rw [hd]
  cases m.getMessageDescriptors env with
  | error err => rfl
  | ok descs =>
    obtain ⟨inputDesc, outputDesc⟩ := descs
    simp only
    cases dec inputDesc with
    | error err => rfl
    | ok req =>
      simp only
      cases convertToMap (some req) with
      | error p => rfl
      | ok data =>
        simp only [MockerEnv.withRuleError]
        cases env.FindByQuery (m.buildQuery data ctx) with
        | error err => rfl
        | ok r =>
          obtain ⟨found⟩ := r
          cases found with
          | none => rfl
          | some stub =>
            rfl

/-- C1 (the code at the failing input): with a matcher that answers the
query with the rule registered from output `{"error": "boom"}`, and whatever
the JSON codecs do, `unaryHandler` returns either a response or an Internal
error whose message starts with `failed to create response: `; it never fails
with the message `boom`. -/
theorem unaryHandler_ignores_rule_error
    (jsonMarshal : Payload → Except GoError (List Nat))
    (protojsonUnmarshal : List Nat → MessageDescriptor → Except GoError Message) :
    createOutput (GoValue.map (some [("error", GoValue.string "boom")]))
      = Except.ok boomStub.Output ∧
    ((∃ msg, greeter.unaryHandler (boomEnv jsonMarshal protojsonUnmarshal) none helloDec
        = Except.ok (some msg, none)) ∨
     (∃ err : GoError,
        greeter.unaryHandler (boomEnv jsonMarshal protojsonUnmarshal) none helloDec
        = Except.ok (none, some (GoError.status Code.Internal
            ("failed to create response: " ++ err.Error))))) ∧
    ¬ (∃ resp err, greeter.unaryHandler (boomEnv jsonMarshal protojsonUnmarshal) none helloDec
        = Except.ok (resp, some err) ∧ err.statusMessage = "boom") := by
  have hdesc : greeter.getMessageDescriptors (boomEnv jsonMarshal protojsonUnmarshal)
      = Except.ok (helloRequest, helloReply) := rfl
  have hconv : convertToMap (some [({ Name := "name", Kind := Kind.StringKind },
      Value.string "world")]) = Except.ok (some [("name", GoValue.string "world")]) := rfl
  have hrun : greeter.unaryHandler (boomEnv jsonMarshal protojsonUnmarshal) none helloDec
      = match greeter.newOutputMessage (boomEnv jsonMarshal protojsonUnmarshal) none
          helloReply with
        | (_, some err) =>
          Except.ok (none, some (GoError.status Code.Internal
            ("failed to create response: " ++ err.Error)))
        | (outputMsg, none) => Except.ok (outputMsg, none) := by
    simp only [SimpleMocker.unaryHandler, hdesc, helloDec, hconv]
    rfl
  refine ⟨rfl, ?_, ?_⟩
  · rcases newOutputMessage_cases (boomEnv jsonMarshal protojsonUnmarshal) greeter none
        helloReply with ⟨msg, h⟩ | ⟨err, h⟩
    · exact Or.inl ⟨msg, by rw [hrun, h]⟩
    · exact Or.inr ⟨err, by rw [hrun, h]⟩
  · rintro ⟨resp, err, hret, hmsg⟩
    rcases newOutputMessage_cases (boomEnv jsonMarshal protojsonUnmarshal) greeter none
        helloReply with ⟨msg, h⟩ | ⟨err', h⟩
    · rw [hrun, h] at hret
      simp only [Except.ok.injEq, Prod.mk.injEq] at hret
      exact absurd hret.2 (by simp)
    · rw [hrun, h] at hret
      simp only [Except.ok.injEq, Prod.mk.injEq, Option.some.injEq] at hret
      rw [← hret.2] at hmsg
      exact response_text_ne_boom _ hmsg

/-- C10 (counterexample): for metadata that is not empty and whose keys are
all excluded names, `processHeaders` returns a non-nil empty mapping, and the
query carries it. -/
theorem processHeaders_returns_empty_mapping :
    (GoMap.keys housekeepingOnly).all (fun k => decide (k ∈ excludedHeaders)) = true ∧
    processHeaders housekeepingOnly = some [] ∧
    (greeter.buildQuery none (some housekeepingOnly)).Headers = some [] :=
  ⟨by decide, rfl, rfl⟩

/-- C10 (amended): `processHeaders` returns nil exactly when the incoming
metadata is empty; for metadata that is not empty and whose keys are all
excluded names it returns a non-nil empty mapping; the query carries what
`processHeaders` returns, and no headers when the call has no metadata. -/
theorem processHeaders_nil_iff_no_metadata (md : GoMap String (List String)) :
    (processHeaders md = none ↔ md = []) ∧
    (md ≠ [] → (∀ k ∈ GoMap.keys md, k ∈ excludedHeaders) → processHeaders md = some []) ∧
    (∀ (m : SimpleMocker) (data : Payload),
      (m.buildQuery data (some md)).Headers = processHeaders md ∧
      (m.buildQuery data none).Headers = none) := by
  refine ⟨?_, ?_, fun m data => ⟨rfl, rfl⟩⟩
  · cases md with
    | nil => simp [processHeaders]
    | cons e rest => simp [processHeaders]
  · intro hne hall
    cases md with
    | nil => exact absurd rfl hne
    | cons e rest =>
      simp only [processHeaders, List.length_cons, Nat.add_one_ne_zero, if_false]
      rw [processHeadersLoop_all_excluded (e :: rest) hall]

/-- Witness of the amended C10 at metadata holding only excluded names. -/
theorem processHeaders_nil_iff_no_metadata_witness :
    housekeepingOnly ≠ [] ∧ processHeaders housekeepingOnly = some [] :=
  ⟨by decide,
   (processHeaders_nil_iff_no_metadata housekeepingOnly).2.1 (by decide) (by decide)⟩

/-! ## Lemmas on decoding -/

/-- One step of the `Range` loop of `convertToMap`: a field that is not
populated is passed over, any other one is converted and stored. -/
theorem convertFields_cons (has : FieldDescriptor → Bool) (fd : FieldDescriptor)
    (value : Value) (rest : List (FieldDescriptor × Value)) (acc : GoMap String GoValue) :
    convertFields has ((fd, value) :: rest) acc =
      if !value.populated then convertFields has rest acc
      else if !has fd then convertFields has rest acc
      else
        match convertField fd value with
        | Except.ok g => convertFields has rest (GoMap.set acc fd.Name g)
        | Except.error p => Except.error p := by
  cases value with
  | list xs =>
    simp only [convertFields, convertField]
    by_cases hl : fd.IsList = true
    · simp only [hl, if_true]
      cases convertElements fd xs <;> rfl
    · by_cases hm : fd.IsMap = true
      · simp [hl, hm]
      · simp only [hl, hm, Bool.false_eq_true, if_false]
  | map es =>
    simp only [convertFields, convertField]
    by_cases hl : fd.IsList = true
    · simp [hl]
    · by_cases hm : fd.IsMap = true
      · simp only [hl, hm, if_true, Bool.false_eq_true, if_false]
        cases convertEntries fd.MapValue es [] <;> rfl
      · simp only [hl, hm, Bool.false_eq_true, if_false]
  | _ =>
    simp only [convertFields, convertField]
    by_cases hl : fd.IsList = true
    · simp [hl]
    · by_cases hm : fd.IsMap = true
      · simp [hl, hm]
      · simp only [hl, hm, Bool.false_eq_true, if_false]

/-- The loop leaves untouched every name that none of the remaining fields
has. -/
theorem convertFields_get_of_not_mem (has : FieldDescriptor → Bool)
    (fs : List (FieldDescriptor × Value)) (acc result : GoMap String GoValue) (n : String)
    (hret : convertFields has fs acc = Except.ok result) (hn : n ∉ Message.names fs) :
    GoMap.get result n = GoMap.get acc n := by
  induction fs generalizing acc with
  | nil =>
    simp only [convertFields, Except.ok.injEq] at hret
    rw [hret]
  | cons f rest ih =>
    obtain ⟨fd, value⟩ := f
    have hn' : fd.Name ≠ n ∧ n ∉ Message.names rest := by
      simp only [Message.names, List.map_cons, List.mem_cons, not_or] at hn
      exact ⟨fun h => hn.1 h.symm, hn.2⟩
    rw [convertFields_cons] at hret
    split at hret
    · exact ih acc hret hn'.2
    · split at hret
      · exact ih acc hret hn'.2
      · split at hret
        · rw [ih _ hret hn'.2, GoMap.get_set, if_neg hn'.1]
        · cases hret

/-- A populated field the loop visits is stored under its name, converted. -/
theorem convertFields_get_of_mem (has : FieldDescriptor → Bool)
    (fs : List (FieldDescriptor × Value)) (acc result : GoMap String GoValue)
    (fd : FieldDescriptor) (value : Value)
    (hnd : (Message.names fs).Nodup) (hmem : (fd, value) ∈ fs)
    (hp : value.populated = true) (hh : has fd = true)
    (hret : convertFields has fs acc = Except.ok result) :
    ∃ g, convertField fd value = Except.ok g ∧ GoMap.get result fd.Name = some g := by
  induction fs generalizing acc with
  | nil => cases hmem
  | cons f rest ih =>
    obtain ⟨fd0, value0⟩ := f
    have hnd' : fd0.Name ∉ Message.names rest ∧ (Message.names rest).Nodup := by
      simpa [Message.names] using hnd
    rw [convertFields_cons] at hret
    rcases List.mem_cons.1 hmem with h | h
    · cases h
      simp only [hp, hh, Bool.not_true, Bool.false_eq_true, if_false] at hret
      split at hret
      · rename_i g hg
        refine ⟨g, hg, ?_⟩
        rw [convertFields_get_of_not_mem has rest _ result fd.Name hret hnd'.1, GoMap.get_set,
          if_pos rfl]
      · cases hret
    · split at hret
      · exact ih acc hnd'.2 h hret
      · split at hret
        · exact ih acc hnd'.2 h hret
        · split at hret
          · exact ih _ hnd'.2 h hret
          · cases hret

/-- A stored field that is not populated leaves no entry of its own. -/
theorem convertFields_get_of_unpopulated (has : FieldDescriptor → Bool)
    (fs : List (FieldDescriptor × Value)) (acc result : GoMap String GoValue)
    (fd : FieldDescriptor) (value : Value)
    (hnd : (Message.names fs).Nodup) (hmem : (fd, value) ∈ fs)
    (hp : value.populated = false)
    (hret : convertFields has fs acc = Except.ok result) :
    GoMap.get result fd.Name = GoMap.get acc fd.Name := by
  induction fs generalizing acc with
  | nil => cases hmem
  | cons f rest ih =>
    obtain ⟨fd0, value0⟩ := f
    have hnd' : fd0.Name ∉ Message.names rest ∧ (Message.names rest).Nodup := by
      simpa [Message.names] using hnd
    rw [convertFields_cons] at hret
    rcases List.mem_cons.1 hmem with h | h
    · cases h
      simp only [hp, Bool.not_false, if_true] at hret
      exact convertFields_get_of_not_mem has rest acc result fd.Name hret hnd'.1
    · have hne : fd0.Name ≠ fd.Name := by
        intro heq
        apply hnd'.1
        rw [heq]
        exact List.mem_map.2 ⟨(fd, value), h, rfl⟩
      split at hret
      · exact ih acc hnd'.2 h hret
      · split at hret
        · exact ih acc hnd'.2 h hret
        · split at hret
          · rw [ih _ hnd'.2 h hret, GoMap.get_set, if_neg hne]
          · cases hret

/-- The elements of a list value are converted one by one, in order. -/
theorem convertElements_forall2 (fd : FieldDescriptor) (xs : List Value) (gs : List GoValue)
    (h : convertElements fd xs = Except.ok gs) :
    List.Forall₂ (fun x g => convertSingleValue fd x = Except.ok g) xs gs := by
  induction xs generalizing gs with
  | nil =>
    simp only [convertElements, Except.ok.injEq] at h
    subst h
    exact List.Forall₂.nil
  | cons x rest ih =>
    simp only [convertElements] at h
    split at h
    · rename_i g hg
      split at h
      · rename_i gs' hgs
        simp only [Except.ok.injEq] at h
        subst h
        exact List.Forall₂.cons hg (ih gs' hgs)
      · cases h
    · cases h

/-- A populated stored field makes `Has` true on its message. -/
theorem Message.Has_of_mem (msg : Message) (fd : FieldDescriptor) (value : Value)
    (hmem : (fd, value) ∈ msg) (hp : value.populated = true) : Message.Has msg fd = true := by
  unfold Message.Has
  rw [List.any_eq_true]
  exact ⟨(fd, value), hmem, by simp [hp]⟩

theorem fieldsConform_cons (fd : FieldDescriptor) (value : Value)
    (rest : List (FieldDescriptor × Value)) :
    fieldsConform ((fd, value) :: rest) =
      ((if fd.IsList then
          match value with
          | Value.list xs => elementsConform fd xs
          | _ => false
        else if fd.IsMap then
          match value with
          | Value.map es => entriesConform fd.MapValue es
          | _ => false
        else
          Value.conformsTo fd value) && fieldsConform rest) := by
  cases value <;> rfl

theorem elementsConform_cons (fd : FieldDescriptor) (v : Value) (rest : List Value) :
    elementsConform fd (v :: rest) = (Value.conformsTo fd v && elementsConform fd rest) := by
  cases v <;> rfl

theorem entriesConform_cons (valueDesc : FieldDescriptor) (key : MapKey) (val : Value)
    (rest : List (MapKey × Value)) :
    entriesConform valueDesc ((key, val) :: rest)
      = (Value.conformsTo valueDesc val && entriesConform valueDesc rest) := by
  cases val <;> rfl

theorem conformsTo_message (fd : FieldDescriptor) (fields : List (FieldDescriptor × Value)) :
    Value.conformsTo fd (Value.message (some fields)) =
      (decide (fd.Kind = Kind.MessageKind ∨ fd.Kind = Kind.GroupKind) && fieldsConform fields) := by
  obtain ⟨name, kind, isList, isMap, ev, mk, mev⟩ := fd
  cases kind <;> rfl

theorem convertSingleValue_message (fd : FieldDescriptor)
    (fields : List (FieldDescriptor × Value))
    (hk : fd.Kind = Kind.MessageKind ∨ fd.Kind = Kind.GroupKind) :
    convertSingleValue fd (Value.message (some fields)) =
      match convertFields (Message.Has fields) fields [] with
      | Except.ok result => Except.ok (GoValue.map (some result))
      | Except.error p => Except.error p := by
  obtain ⟨name, kind, isList, isMap, ev, mk, mev⟩ := fd
  cases kind <;> first | rfl | (simp at hk)

theorem conformsTo_enum (fd : FieldDescriptor) (n : Int) (hk : fd.Kind = Kind.EnumKind) :
    Value.conformsTo fd (Value.enum n) = (fd.enumByNumber n).isSome := by
  obtain ⟨name, kind, isList, isMap, ev, mk, mev⟩ := fd
  cases hk
  rfl

theorem convertSingleValue_enum (fd : FieldDescriptor) (n : Int)
    (hk : fd.Kind = Kind.EnumKind) :
    convertSingleValue fd (Value.enum n) =
      match fd.enumByNumber n with
      | some name => Except.ok (GoValue.string name)
      | none => Except.error Panic.nilDereference := by
  obtain ⟨name, kind, isList, isMap, ev, mk, mev⟩ := fd
  cases hk
  rfl

theorem convertSingleValue_total_flat (fd : FieldDescriptor) (value : Value)
    (hflat : ∀ fields, value ≠ Value.message (some fields))
    (h : Value.conformsTo fd value = true) :
    ∃ g, convertSingleValue fd value = Except.ok g := by
  by_cases he : fd.Kind = Kind.EnumKind ∧ ∃ n, value = Value.enum n
  · obtain ⟨hk, n, rfl⟩ := he
    rw [conformsTo_enum fd n hk] at h
    rw [convertSingleValue_enum fd n hk]
    cases hn : fd.enumByNumber n with
    | none => simp [hn] at h
    | some name => exact ⟨_, rfl⟩
  · obtain ⟨name, kind, isList, isMap, ev, mk, mev⟩ := fd
    cases kind <;> cases value <;>
      first
      | exact ⟨_, rfl⟩
      | exact Bool.noConfusion (show false = true from h)
      | (rename_i m
         cases m <;>
           first
           | exact ⟨_, rfl⟩
           | exact Bool.noConfusion (show false = true from h)
           | exact absurd rfl (hflat _))
      | exact (he ⟨rfl, _, rfl⟩).elim

mutual
/-- A conforming singular value converts without panic. -/
theorem convertSingleValue_total (fd : FieldDescriptor) :
    (value : Value) → Value.conformsTo fd value = true →
      ∃ g, convertSingleValue fd value = Except.ok g
  | Value.message (some fields), h => by
    rw [conformsTo_message] at h
    simp only [Bool.and_eq_true, decide_eq_true_eq] at h
    obtain ⟨r, hr⟩ := convertFields_total (Message.Has fields) fields h.2 []
    rw [convertSingleValue_message fd fields h.1, hr]
    exact ⟨_, rfl⟩
  | Value.message none, h =>
    convertSingleValue_total_flat fd _ (fun _ hf => by cases hf) h
  | Value.invalid, h => convertSingleValue_total_flat fd _ (fun _ hf => by cases hf) h
  | Value.bool _, h => convertSingleValue_total_flat fd _ (fun _ hf => by cases hf) h
  | Value.int _, h => convertSingleValue_total_flat fd _ (fun _ hf => by cases hf) h
  | Value.uint _, h => convertSingleValue_total_flat fd _ (fun _ hf => by cases hf) h
  | Value.float _, h => convertSingleValue_total_flat fd _ (fun _ hf => by cases hf) h
  | Value.string _, h => convertSingleValue_total_flat fd _ (fun _ hf => by cases hf) h
  | Value.bytes _, h => convertSingleValue_total_flat fd _ (fun _ hf => by cases hf) h
  | Value.enum _, h => convertSingleValue_total_flat fd _ (fun _ hf => by cases hf) h
  | Value.list _, h => convertSingleValue_total_flat fd _ (fun _ hf => by cases hf) h
  | Value.map _, h => convertSingleValue_total_flat fd _ (fun _ hf => by cases hf) h
/-- The `Range` loop over conforming fields ends without panic. -/
theorem convertFields_total (has : FieldDescriptor → Bool) :
    (fs : List (FieldDescriptor × Value)) → fieldsConform fs = true →
      ∀ acc : GoMap String GoValue, ∃ r, convertFields has fs acc = Except.ok r
  | [], _ => fun acc => ⟨acc, rfl⟩
  | (fd, value) :: rest, h => fun acc => by
    rw [fieldsConform_cons] at h
    simp only [Bool.and_eq_true] at h
    have hfield : ∃ g, convertField fd value = Except.ok g := by
      unfold convertField
      by_cases hl : fd.IsList = true
      · simp only [hl, if_true] at h ⊢
        cases value with
        | list xs =>
          obtain ⟨gs, hgs⟩ := convertElements_total fd xs h.1
          simp only [hgs]
          exact ⟨_, rfl⟩
        | _ => exact Bool.noConfusion h.1
      · by_cases hm : fd.IsMap = true
        · simp only [hl, hm, if_true, Bool.false_eq_true, if_false] at h ⊢
          cases value with
          | map es =>
            obtain ⟨r, hr⟩ := convertEntries_total fd.MapValue es h.1 []
            simp only [hr]
            exact ⟨_, rfl⟩
          | _ => exact Bool.noConfusion h.1
        · simp only [hl, hm, Bool.false_eq_true, if_false] at h ⊢
          exact convertSingleValue_total fd value h.1
    obtain ⟨g, hg⟩ := hfield
    rw [convertFields_cons, hg]
    split
    · exact convertFields_total has rest h.2 acc
    · split
      · exact convertFields_total has rest h.2 acc
      · exact convertFields_total has rest h.2 _
/-- The elements of a conforming list convert without panic. -/
theorem convertElements_total (fd : FieldDescriptor) :
    (xs : List Value) → elementsConform fd xs = true →
      ∃ gs, convertElements fd xs = Except.ok gs
  | [], _ => ⟨[], rfl⟩
  | x :: rest, h => by
    rw [elementsConform_cons] at h
    simp only [Bool.and_eq_true] at h
    obtain ⟨g, hg⟩ := convertSingleValue_total fd x h.1
    obtain ⟨gs, hgs⟩ := convertElements_total fd rest h.2
    exact ⟨g :: gs, by simp only [convertElements, hg, hgs]⟩
/-- The entries of a conforming map convert without panic. -/
theorem convertEntries_total (valueDesc : FieldDescriptor) :
    (es : List (MapKey × Value)) → entriesConform valueDesc es = true →
      ∀ acc : GoMap String GoValue, ∃ r, convertEntries valueDesc es acc = Except.ok r
  | [], _ => fun acc => ⟨acc, rfl⟩
  | (key, val) :: rest, h => fun acc => by
    rw [entriesConform_cons] at h
    simp only [Bool.and_eq_true] at h
    obtain ⟨g, hg⟩ := convertSingleValue_total valueDesc val h.1
    obtain ⟨r, hr⟩ := convertEntries_total valueDesc rest h.2 (GoMap.set acc key.String g)
    exact ⟨r, by simp only [convertEntries, hg, hr]⟩
end

/-- A message all of whose stored fields conform, every enumeration number
having a declared name, decodes to a mapping. -/
theorem convertToMap_total (msg : Message) (h : fieldsConform msg = true) :
    ∃ result, convertToMap (some msg) = Except.ok (some result) := by
  obtain ⟨r, hr⟩ := convertFields_total (Message.Has msg) msg h []
  exact ⟨r, by simp only [convertToMap, hr]⟩

/-- An enumeration number without a declared name makes `convertSingleValue`
panic. -/
theorem convertSingleValue_unnamed_enum (fd : FieldDescriptor) (n : Int)
    (hk : fd.Kind = Kind.EnumKind) (hn : fd.enumByNumber n = none) :
    convertSingleValue fd (Value.enum n) = Except.error Panic.nilDereference := by
  rw [convertSingleValue_enum fd n hk, hn]

/-! ## Theorems on decoding -/

/-- C11 (counterexample): a message that stores its repeated field `tags`
with no elements decodes to a mapping that has no entry `tags`. -/
theorem convertToMap_omits_empty_repeated :
    noTagsMessage
      = [({ Name := "name", Kind := Kind.StringKind }, Value.string "world"),
         ({ Name := "tags", Kind := Kind.StringKind, IsList := true }, Value.list [])] ∧
    convertToMap (some noTagsMessage)
      = Except.ok (some [("name", GoValue.string "world")]) ∧
    lookup (some [("name", GoValue.string "world")]) "tags" = none :=
  ⟨rfl, rfl, rfl⟩

/-- C11 (amended): for every message with distinct field names and every
repeated field it stores, the mapping `convertToMap` produces maps the field's
name to the sequence of its elements, each converted by `convertSingleValue`,
of the same length and in the same order, when the field has at least one
element, and has no entry of that name when the field has no elements, nor
any entry under a name that no stored field has; a mapping is produced
whenever the stored fields conform. -/
theorem convertToMap_repeated_field (msg : Message) (fd : FieldDescriptor)
    (xs : List Value) (hnd : (Message.names msg).Nodup)
    (hmem : (fd, Value.list xs) ∈ msg) (hl : fd.IsList = true) :
    (∀ result, convertToMap (some msg) = Except.ok result →
      (xs ≠ [] → ∃ gs, lookup result fd.Name = some (GoValue.slice gs) ∧
        gs.length = xs.length ∧
        List.Forall₂ (fun x g => convertSingleValue fd x = Except.ok g) xs gs) ∧
      (xs = [] → lookup result fd.Name = none) ∧
      (∀ n, n ∉ Message.names msg → lookup result n = none)) ∧
    (fieldsConform msg = true → ∃ result, convertToMap (some msg) = Except.ok (some result)) := by
  refine ⟨?_, convertToMap_total msg⟩
  intro result hret
  unfold convertToMap at hret
  simp only at hret
  split at hret
  · rename_i r hr
    simp only [Except.ok.injEq] at hret
    subst hret
    refine ⟨?_, ?_, ?_⟩
    · intro hne
      have hp : (Value.list xs).populated = true := by
        cases xs with
        | nil => exact absurd rfl hne
        | cons x rest => rfl
      obtain ⟨g, hg, hget⟩ := convertFields_get_of_mem (Message.Has msg) msg [] r fd
        (Value.list xs) hnd hmem hp (Message.Has_of_mem msg fd _ hmem hp) hr
      unfold convertField at hg
      simp only [hl, if_true] at hg
      split at hg
      · rename_i gs hgs
        simp only [Except.ok.injEq] at hg
        subst hg
        have hall := convertElements_forall2 fd xs gs hgs
        exact ⟨gs, hget, hall.length_eq.symm, hall⟩
      · cases hg
    · intro hnil
      subst hnil
      have := convertFields_get_of_unpopulated (Message.Has msg) msg [] r fd (Value.list [])
        hnd hmem rfl hr
      simpa [lookup, GoMap.get] using this
    · intro n hn
      have := convertFields_get_of_not_mem (Message.Has msg) msg [] r n hr hn
      simpa [lookup, GoMap.get] using this
  · cases hret

/-- Witness of the amended C11 at a message whose field `tags` holds two
elements. -/
theorem convertToMap_repeated_field_witness :
    ∃ gs, lookup (some [("name", GoValue.string "world"),
          ("tags", GoValue.slice [GoValue.string "a", GoValue.string "b"])]) "tags"
        = some (GoValue.slice gs) ∧
      gs.length = 2 ∧
      List.Forall₂ (fun x g => convertSingleValue tagsField x = Except.ok g)
        [Value.string "a", Value.string "b"] gs :=
  ((convertToMap_repeated_field twoTagsMessage tagsField [Value.string "a", Value.string "b"]
      (by decide) (List.mem_cons_of_mem _ (List.mem_cons_self _ _)) rfl).1
    (some [("name", GoValue.string "world"),
      ("tags", GoValue.slice [GoValue.string "a", GoValue.string "b"])]) rfl).1
    (by simp)

/-- C12 (the code at the failing input): a message whose enumeration field
`color` holds the number 5, for which the enumeration declares no name, makes
`convertToMap` panic with a nil dereference, while the same message with the
declared number 0 decodes to the name `RED`. -/
theorem convertToMap_panics_on_unnamed_enum :
    unnamedColorMessage
      = [({ Name := "name", Kind := Kind.StringKind }, Value.string "world"),
         ({ Name := "color", Kind := Kind.EnumKind, EnumValues := [(0, "RED")] },
           Value.enum 5)] ∧
    convertToMap (some unnamedColorMessage) = Except.error Panic.nilDereference ∧
    convertToMap (some namedColorMessage)
      = Except.ok (some [("name", GoValue.string "world"), ("color", GoValue.string "RED")]) :=
  ⟨rfl, rfl, rfl⟩

end Gripmock
